import Mathlib

/-!
Verification of the schema-resolution and normalization engine of the
mock-api-generator server (source: mockServer.cjs, with mockServer.js an
older variant sharing the same generateMockFromSchema).

The JavaScript source is shallowly embedded: JS runtime values are the
inductive type Json (with an explicit undef constructor, since JS object
fields may hold undefined), truthiness and the or-else operator follow JS
semantics, and computations that can throw a TypeError or recurse without
bound return values in JsOut, whose noFuel constructor marks exhaustion of
an explicit recursion budget (modelling the JS call stack). String
primitives (split, replace, toUpperCase) are re-implemented over character
lists so that every definition evaluates inside the kernel. JS numbers are
modelled as integers; NaN and fractional values are outside the model and
are not produced by any modelled operation. Object key enumeration is
modelled in insertion order (the JS numeric-key reordering corner is never
exercised by schema documents with path/component/content-type keys).
-/

inductive Json where
  | undef
  | null
  | bool (b : Bool)
  | num (n : Int)
  | str (s : String)
  | arr (elems : List Json)
  | obj (fields : List (String × Json))

instance : Inhabited Json := ⟨Json.undef⟩

mutual

/-- Structural (strict) equality test on modelled JS values. -/
def Json.beq : Json → Json → Bool
  | .undef, .undef => true
  | .null, .null => true
  | .bool a, .bool b => a == b
  | .num a, .num b => a == b
  | .str a, .str b => a == b
  | .arr a, .arr b => Json.beqArr a b
  | .obj a, .obj b => Json.beqObj a b
  | _, _ => false

/-- Elementwise equality test on JS array contents. -/
def Json.beqArr : List Json → List Json → Bool
  | [], [] => true
  | a :: as, b :: bs => Json.beq a b && Json.beqArr as bs
  | _, _ => false

/-- Elementwise equality test on JS object field lists. -/
def Json.beqObj : List (String × Json) → List (String × Json) → Bool
  | [], [] => true
  | (k1, v1) :: as, (k2, v2) :: bs => k1 == k2 && Json.beq v1 v2 && Json.beqObj as bs
  | _, _ => false

end

/-- JS truthiness: undefined, null, false, 0 and the empty string are falsy;
arrays and objects are always truthy. -/
def truthy : Json → Bool
  | .undef => false
  | .null => false
  | .bool b => b
  | .num n => n != 0
  | .str s => s != ""
  | .arr _ => true
  | .obj _ => true

/-- Property read on a JS value that is known not to be null or undefined:
objects yield the field value or undefined; primitives and arrays yield
undefined for the (non-numeric) property names the source ever reads. -/
def getField : Json → String → Json
  | .obj fields, k => ((fields.find? (fun kv => kv.1 == k)).map (fun kv => kv.2)).getD Json.undef
  | _, _ => Json.undef

/-- Optional-chaining property read (the JS question-dot operator): null and
undefined receivers yield undefined instead of throwing. -/
def jsGetOpt (j : Json) (k : String) : Json :=
  match j with
  | Json.undef => Json.undef
  | Json.null => Json.undef
  | _ => getField j k

/-- The JS or-else operator: the left operand if truthy, else the right. -/
def jsOr (a b : Json) : Json := if truthy a then a else b

/-- JS object property assignment: replaces the value in place when the key
exists, appends the key otherwise (preserving JS key insertion order). -/
def objSet (fields : List (String × Json)) (k : String) (v : Json) : List (String × Json) :=
  if fields.any (fun kv => kv.1 == k) then
    fields.map (fun kv => if kv.1 == k then (k, v) else kv)
  else fields ++ [(k, v)]

/-- Object.entries and for-in key enumeration: object fields in insertion
order, array elements under their stringified indices, string characters
under their indices, nothing for primitives. -/
def jsEntries : Json → List (String × Json)
  | Json.obj fields => fields
  | Json.arr elems => elems.enum.map (fun p => (toString p.1, p.2))
  | Json.str s => s.toList.enum.map (fun p => (toString p.1, Json.str (String.mk [p.2])))
  | _ => []

/-- Character-list splitter underlying jsSplit. -/
def splitChars (sep : Char) : List Char → List (List Char)
  | [] => [[]]
  | c :: rest =>
    if c = sep then [] :: splitChars sep rest
    else
      match splitChars sep rest with
      | h :: t => (c :: h) :: t
      | [] => [[c]]

/-- The JS split on a slash, as used for reference paths: the empty string
splits to a single empty segment, exactly as in JS. -/
def jsSplit (s : String) : List String :=
  (splitChars '/' s.toList).map (fun l => String.mk l)

/-- Bracket lookup of a name in the component table, yielding undefined when
the name is absent (JS componentTable with name indexing). -/
def lookupComponent (components : List (String × Json)) (name : String) : Json :=
  ((components.find? (fun kv => kv.1 == name)).map (fun kv => kv.2)).getD Json.undef

/-- Outcome of a modelled JS computation: a returned value, a thrown
exception carrying its message, or exhaustion of the recursion budget
(standing for divergence or stack overflow of the unbounded JS recursion). -/
inductive JsOut (α : Type) where
  | ret (v : α)
  | thrown (msg : String)
  | noFuel

/-- Sequencing of modelled JS computations: exceptions and fuel exhaustion
propagate. -/
def jsoBind {α β : Type} : JsOut α → (α → JsOut β) → JsOut β
  | .ret v, k => k v
  | .thrown m, _ => .thrown m
  | .noFuel, _ => .noFuel

instance : Monad JsOut where
  pure := JsOut.ret
  bind := jsoBind

/-- Value of a successful outcome, undefined otherwise (used only to state
theorems about outcomes already known to be returns). -/
def retValue : JsOut Json → Json
  | JsOut.ret v => v
  | _ => Json.undef

/-- Throwing property read, for receivers that may be null or undefined (JS
plain property access throws a TypeError there). -/
def jsGet (j : Json) (k : String) : JsOut Json :=
  match j with
  | Json.undef => JsOut.thrown "TypeError"
  | Json.null => JsOut.thrown "TypeError"
  | _ => JsOut.ret (getField j k)

/-- Loop assigning an object key to a recursively computed value for each
entry of a field list (the for-of object-building loops of the source),
propagating exceptions and fuel exhaustion and stopping at the first. -/
def jsoFoldObj (f : Json → JsOut Json) : List (String × Json) → List (String × Json) → JsOut (List (String × Json))
  | acc, [] => JsOut.ret acc
  | acc, (k, v) :: rest =>
    match f v with
    | JsOut.ret r => jsoFoldObj f (objSet acc k r) rest
    | JsOut.thrown e => JsOut.thrown e
    | JsOut.noFuel => JsOut.noFuel

/-- Left-to-right effectful map over a JS array (the map calls on the
composition branches), propagating exceptions and fuel exhaustion. -/
def jsoMapM (f : Json → JsOut Json) : List Json → JsOut (List Json)
  | [] => JsOut.ret []
  | j :: rest =>
    match f j with
    | JsOut.ret v =>
        match jsoMapM f rest with
        | JsOut.ret vs => JsOut.ret (v :: vs)
        | JsOut.thrown e => JsOut.thrown e
        | JsOut.noFuel => JsOut.noFuel
    | JsOut.thrown e => JsOut.thrown e
    | JsOut.noFuel => JsOut.noFuel

/-- Example Synthesizer, mockServer.cjs lines 21-56 (identical in
mockServer.js): generateMockFromSchema(schema, components). The JS function
recurses with no depth bound; the extra fuel argument counts the remaining
recursion depth, and every recursive call consumes one unit, so a noFuel
result for every fuel means the JS call overflows the stack. A truthy
non-string ref field makes the JS code call split on a non-string, a
TypeError. -/
def generateMockFromSchema : Nat → Json → List (String × Json) → JsOut Json
  | 0, _, _ => JsOut.noFuel
  | fuel + 1, schema, components =>
    if truthy schema = false then JsOut.ret Json.null
    else
      let ref := getField schema "$ref"
      if truthy ref then
        match ref with
        | Json.str s =>
            generateMockFromSchema fuel (lookupComponent components ((jsSplit s).getLastD "")) components
        | _ => JsOut.thrown "TypeError"
      else
        match getField schema "type" with
        | Json.str "object" =>
            match jsoFoldObj (fun v => generateMockFromSchema fuel v components) []
                (jsEntries (jsOr (getField schema "properties") (Json.obj []))) with
            | JsOut.ret fields => JsOut.ret (Json.obj fields)
            | JsOut.thrown e => JsOut.thrown e
            | JsOut.noFuel => JsOut.noFuel
        | Json.str "array" =>
            match generateMockFromSchema fuel (getField schema "items") components with
            | JsOut.ret a =>
                match generateMockFromSchema fuel (getField schema "items") components with
                | JsOut.ret b => JsOut.ret (Json.arr [a, b])
                | JsOut.thrown e => JsOut.thrown e
                | JsOut.noFuel => JsOut.noFuel
            | JsOut.thrown e => JsOut.thrown e
            | JsOut.noFuel => JsOut.noFuel
        | Json.str "string" => JsOut.ret (jsOr (getField schema "example") (Json.str "example string"))
        | Json.str "integer" => JsOut.ret (jsOr (getField schema "example") (Json.num 123))
        | Json.str "number" => JsOut.ret (jsOr (getField schema "example") (Json.num 123))
        | Json.str "boolean" => JsOut.ret (jsOr (getField schema "example") (Json.bool true))
        | _ => JsOut.ret (Json.str "mock value")

/-- Sentinel returned by the Schema Normalizer once the depth guard trips
(mockServer.cjs line 127). -/
def maxDepthSentinel : Json :=
  Json.obj [("type", Json.str "object"), ("description", Json.str "Max depth reached")]

/-- Reference Resolver, mockServer.cjs lines 109-121:
resolveSchema(schema, components). Falsy nodes yield null; a truthy ref
field that is a string is split on slashes, and when rooted at a hash
segment followed by a components segment the last segment is looked up in
the table (a missing or falsy entry yielding null); any other string ref,
and any node without a truthy ref, is returned as-is; a truthy non-string
ref makes the JS split call throw a TypeError. -/
def resolveSchema (schema : Json) (components : List (String × Json)) : JsOut Json :=
  if truthy schema = false then JsOut.ret Json.null
  else
    let ref := getField schema "$ref"
    if truthy ref then
      match ref with
      | Json.str s =>
          let refPath := jsSplit s
          if refPath.getD 0 "" == "#" && refPath.getD 1 "" == "components" then
            JsOut.ret (jsOr (lookupComponent components (refPath.getLastD "")) Json.null)
          else JsOut.ret schema
      | _ => JsOut.thrown "TypeError"
    else JsOut.ret schema

/-- Composition-branch handling of the Schema Normalizer (mockServer.cjs
lines 168-176, one invocation per keyword): a truthy branch value must be an
array (the JS map call throws a TypeError otherwise), and each element is
normalized recursively; the result list is assigned under the keyword. -/
def compBranch (recur : Json → JsOut Json) (resolved : Json) (key : String)
    (acc : List (String × Json)) : JsOut (List (String × Json)) :=
  if truthy (getField resolved key) then
    match getField resolved key with
    | Json.arr l =>
        match jsoMapM recur l with
        | JsOut.ret vs => JsOut.ret (objSet acc key (Json.arr vs))
        | JsOut.thrown e => JsOut.thrown e
        | JsOut.noFuel => JsOut.noFuel
    | _ => JsOut.thrown "TypeError"
  else JsOut.ret acc

/-- Scalar metadata record copied verbatim by the Schema Normalizer
(mockServer.cjs lines 135-147): the eleven fields, present even when their
values are undefined, exactly as the JS object literal creates them. -/
def metadataFields (resolved : Json) : List (String × Json) :=
  [("type", getField resolved "type"), ("format", getField resolved "format"),
    ("description", getField resolved "description"), ("example", getField resolved "example"),
    ("default", getField resolved "default"), ("enum", getField resolved "enum"),
    ("minimum", getField resolved "minimum"), ("maximum", getField resolved "maximum"),
    ("minLength", getField resolved "minLength"), ("maxLength", getField resolved "maxLength"),
    ("pattern", getField resolved "pattern")]

/-- Object branch of the Schema Normalizer (mockServer.cjs lines 150-157):
when the resolved type is the object string or properties is truthy, the
type is forced to object, every property is normalized recursively in
declaration order, and required is copied with an empty-array default. -/
def objBranch (recur : Json → JsOut Json) (resolved : Json)
    (acc : List (String × Json)) : JsOut (List (String × Json)) :=
  if Json.beq (getField resolved "type") (Json.str "object") || truthy (getField resolved "properties") then
    match jsoFoldObj recur [] (jsEntries (jsOr (getField resolved "properties") (Json.obj []))) with
    | JsOut.ret props =>
        JsOut.ret (objSet (objSet (objSet acc "type" (Json.str "object"))
          "properties" (Json.obj props)) "required" (jsOr (getField resolved "required") (Json.arr [])))
    | JsOut.thrown e => JsOut.thrown e
    | JsOut.noFuel => JsOut.noFuel
  else JsOut.ret acc

/-- Array branch of the Schema Normalizer (mockServer.cjs lines 160-165):
when the resolved type is the array string or items is truthy, the type is
forced to array (overwriting any earlier assignment), items is normalized
recursively, and minItems and maxItems are copied. -/
def arrBranch (recur : Json → JsOut Json) (resolved : Json)
    (acc : List (String × Json)) : JsOut (List (String × Json)) :=
  if Json.beq (getField resolved "type") (Json.str "array") || truthy (getField resolved "items") then
    match recur (getField resolved "items") with
    | JsOut.ret itemsR =>
        JsOut.ret (objSet (objSet (objSet (objSet acc "type" (Json.str "array"))
          "items" itemsR) "minItems" (getField resolved "minItems"))
          "maxItems" (getField resolved "maxItems"))
    | JsOut.thrown e => JsOut.thrown e
    | JsOut.noFuel => JsOut.noFuel
  else JsOut.ret acc

/-- Body of the Schema Normalizer after reference resolution (mockServer.cjs
lines 135-178), abstracted over the recursive call at depth plus one: the
scalar metadata record, then the object branch, the array branch and the
three composition branches in source order, with JS assignment semantics
for repeated keys and exceptions propagating from any branch. -/
def extractCore (recur : Json → JsOut Json) (resolved : Json) : JsOut Json :=
  match objBranch recur resolved (metadataFields resolved) with
  | JsOut.thrown e => JsOut.thrown e
  | JsOut.noFuel => JsOut.noFuel
  | JsOut.ret r1 =>
    match arrBranch recur resolved r1 with
    | JsOut.thrown e => JsOut.thrown e
    | JsOut.noFuel => JsOut.noFuel
    | JsOut.ret r2 =>
      match compBranch recur resolved "allOf" r2 with
      | JsOut.thrown e => JsOut.thrown e
      | JsOut.noFuel => JsOut.noFuel
      | JsOut.ret r3 =>
        match compBranch recur resolved "anyOf" r3 with
        | JsOut.thrown e => JsOut.thrown e
        | JsOut.noFuel => JsOut.noFuel
        | JsOut.ret r4 =>
          match compBranch recur resolved "oneOf" r4 with
          | JsOut.thrown e => JsOut.thrown e
          | JsOut.noFuel => JsOut.noFuel
          | JsOut.ret r5 => JsOut.ret (Json.obj r5)

/-- Fuel-indexed Schema Normalizer: extractAux fuel corresponds to a source
call at depth eleven minus fuel, so zero fuel is exactly the tripped depth
guard of mockServer.cjs line 127 and every recursive call at depth plus one
spends one unit. Falsy nodes and nodes resolving to a falsy value yield
null (lines 129-133); the rest is extractCore. -/
def extractAux : Nat → Json → List (String × Json) → JsOut Json
  | 0, _, _ => JsOut.ret maxDepthSentinel
  | fuel + 1, schema, components =>
    if truthy schema = false then JsOut.ret Json.null
    else
      match resolveSchema schema components with
      | JsOut.thrown e => JsOut.thrown e
      | JsOut.noFuel => JsOut.noFuel
      | JsOut.ret resolved =>
        if truthy resolved = false then JsOut.ret Json.null
        else extractCore (fun j => extractAux fuel j components) resolved

/-- Schema Normalizer, mockServer.cjs lines 126-179:
extractSchemaStructure(schema, components, depth). The depth argument is
translated to the fuel eleven minus depth, which makes the guard of line 127
(returning the sentinel as soon as depth exceeds ten) and the depth plus one
of every recursive call exact for all natural depths. -/
def extractSchemaStructure (schema : Json) (components : List (String × Json))
    (depth : Nat := 0) : JsOut Json :=
  extractAux (11 - depth) schema components

/-- Uppercasing of an ASCII method or filter string (JS toUpperCase). -/
def jsToUpper (s : String) : String := String.mk (s.toList.map Char.toUpper)

/-- Path-template conversion of mockServer.cjs line 81: every opening brace
becomes a colon and every closing brace is removed (two global replaces,
equivalent charwise because the replacement characters are not braces). -/
def exprPathChars : List Char → List Char
  | [] => []
  | c :: rest =>
    if c = '\x7b' then ':' :: exprPathChars rest
    else if c = '\x7d' then exprPathChars rest
    else c :: exprPathChars rest

/-- Express-style path of a swagger path template (mockServer.cjs line 81). -/
def exprPath (p : String) : String := String.mk (exprPathChars p.toList)

/-- Fixed method list iterated by the Endpoint Extractor (mockServer.cjs
line 193). -/
def methodsList : List String := ["get", "post", "put", "patch", "delete", "options", "head"]

/-- Parameter grouping by location built by the Endpoint Extractor
(mockServer.cjs lines 206-212 and 252-262). -/
structure ParamBuckets where
  path : List Json
  query : List Json
  header : List Json
  cookie : List Json
  all : List Json

/-- Parameter record construction, mockServer.cjs lines 221-250: base
metadata with JS or-else defaults, then, when the parameter carries a truthy
schema, resolution plus normalization and the documented precedence chains
for type, format, example, default, enum and the bounds; otherwise a string
type default. Style is copied when truthy, explode whenever not undefined.
A null parameter entry throws on the first property access, like JS. -/
def extractParamInfo (param : Json) (schemas : List (String × Json)) : JsOut Json := do
  let nameV ← jsGet param "name"
  let inV ← jsGet param "in"
  let requiredV ← jsGet param "required"
  let descV ← jsGet param "description"
  let deprV ← jsGet param "deprecated"
  let base := [("name", nameV), ("in", inV), ("required", jsOr requiredV (Json.bool false)),
    ("description", jsOr descV (Json.str "")), ("deprecated", jsOr deprV (Json.bool false))]
  let pschema ← jsGet param "schema"
  let p1 ←
    if truthy pschema then do
      let resolvedS ← resolveSchema pschema schemas
      let full ← extractSchemaStructure (jsOr resolvedS pschema) schemas 0
      let pa := objSet base "schema" full
      let pb := objSet pa "type"
        (jsOr (jsGetOpt full "type") (jsOr (jsGetOpt pschema "type") (Json.str "string")))
      let pc := objSet pb "format" (jsOr (jsGetOpt full "format") (jsGetOpt pschema "format"))
      let pd := objSet pc "example"
        (jsOr (getField param "example") (jsOr (jsGetOpt full "example") (jsGetOpt pschema "example")))
      let pe := objSet pd "default" (jsOr (jsGetOpt full "default") (jsGetOpt pschema "default"))
      let pf := objSet pe "enum" (jsOr (jsGetOpt full "enum") (jsGetOpt pschema "enum"))
      let pg := objSet pf "minimum" (jsGetOpt full "minimum")
      let ph := objSet pg "maximum" (jsGetOpt full "maximum")
      let pi2 := objSet ph "minLength" (jsGetOpt full "minLength")
      let pj := objSet pi2 "maxLength" (jsGetOpt full "maxLength")
      pure (objSet pj "pattern" (jsGetOpt full "pattern"))
    else pure (objSet base "type" (Json.str "string"))
  let p2 := if truthy (getField param "style") then objSet p1 "style" (getField param "style") else p1
  let p3 := if Json.beq (getField param "explode") Json.undef then p2
    else objSet p2 "explode" (getField param "explode")
  pure (Json.obj p3)

/-- Parameter loop of the Endpoint Extractor (mockServer.cjs lines 220-264):
each parameter record is appended to the catch-all group and then to the
group named by its location, in declaration order. -/
def extractParams (schemas : List (String × Json)) : List Json → ParamBuckets → JsOut ParamBuckets
  | [], acc => JsOut.ret acc
  | param :: rest, acc =>
    match extractParamInfo param schemas with
    | JsOut.thrown e => JsOut.thrown e
    | JsOut.noFuel => JsOut.noFuel
    | JsOut.ret info =>
      let acc2 := { acc with all := acc.all ++ [info] }
      let acc3 :=
        if Json.beq (getField param "in") (Json.str "path") then { acc2 with path := acc2.path ++ [info] }
        else if Json.beq (getField param "in") (Json.str "query") then { acc2 with query := acc2.query ++ [info] }
        else if Json.beq (getField param "in") (Json.str "header") then { acc2 with header := acc2.header ++ [info] }
        else if Json.beq (getField param "in") (Json.str "cookie") then { acc2 with cookie := acc2.cookie ++ [info] }
        else acc2
      extractParams schemas rest acc3

/-- Per-content-type record of the request body loop (mockServer.cjs lines
281-308): with a truthy schema the schema is resolved and normalized and a
generated example is synthesized exactly when the literal example of that
content type is falsy; otherwise a null-schema record with a null generated
example. -/
def contentTypeRecord (ctVal : Json) (schemas : List (String × Json)) (fuel : Nat) : JsOut Json :=
  if truthy (jsGetOpt ctVal "schema") then
    match resolveSchema (jsGetOpt ctVal "schema") schemas with
    | JsOut.thrown e => JsOut.thrown e
    | JsOut.noFuel => JsOut.noFuel
    | JsOut.ret resolvedS =>
      match extractSchemaStructure (jsOr resolvedS (jsGetOpt ctVal "schema")) schemas 0 with
      | JsOut.thrown e => JsOut.thrown e
      | JsOut.noFuel => JsOut.noFuel
      | JsOut.ret full =>
        match (if truthy (jsGetOpt ctVal "example") then JsOut.ret Json.null
          else generateMockFromSchema fuel (jsOr resolvedS (jsGetOpt ctVal "schema")) schemas) with
        | JsOut.thrown e => JsOut.thrown e
        | JsOut.noFuel => JsOut.noFuel
        | JsOut.ret gen =>
          JsOut.ret (Json.obj [("schema", full), ("example", jsGetOpt ctVal "example"),
            ("examples", jsGetOpt ctVal "examples"), ("generatedExample", gen)])
  else
    JsOut.ret (Json.obj [("schema", Json.null), ("example", jsGetOpt ctVal "example"),
      ("examples", jsGetOpt ctVal "examples"), ("generatedExample", Json.null)])

/-- Primary-example computation of mockServer.cjs lines 298-299, factored
out of the truthy-schema branch it runs in (resolution is deterministic, so
recomputing it preserves the JS behaviour): the literal example of the
content type if truthy, else a second synthesizer run. -/
def primaryExampleOf (ctVal : Json) (schemas : List (String × Json)) (fuel : Nat) : JsOut Json :=
  match resolveSchema (jsGetOpt ctVal "schema") schemas with
  | JsOut.thrown e => JsOut.thrown e
  | JsOut.noFuel => JsOut.noFuel
  | JsOut.ret resolvedS =>
    if truthy (jsGetOpt ctVal "example") then JsOut.ret (jsGetOpt ctVal "example")
    else generateMockFromSchema fuel (jsOr resolvedS (jsGetOpt ctVal "schema")) schemas

/-- Content-type loop of the request body extraction (mockServer.cjs lines
280-309), carrying the accumulated contentTypes fields and the primary
example, which is assigned only while the stored example is falsy, the
content type is application/json and its schema is truthy. -/
def processContentTypes (content : Json) (schemas : List (String × Json)) (fuel : Nat) :
    List String → List (String × Json) → Json → JsOut (List (String × Json) × Json)
  | [], ctAcc, ex => JsOut.ret (ctAcc, ex)
  | ct :: rest, ctAcc, ex =>
    let ctVal := getField content ct
    match contentTypeRecord ctVal schemas fuel with
    | JsOut.thrown e => JsOut.thrown e
    | JsOut.noFuel => JsOut.noFuel
    | JsOut.ret ctRec =>
      let ctAcc2 := objSet ctAcc ct ctRec
      if truthy (jsGetOpt ctVal "schema") && !(truthy ex) && ct == "application/json" then
        match primaryExampleOf ctVal schemas fuel with
        | JsOut.thrown e => JsOut.thrown e
        | JsOut.noFuel => JsOut.noFuel
        | JsOut.ret prim => processContentTypes content schemas fuel rest ctAcc2 prim
      else processContentTypes content schemas fuel rest ctAcc2 ex

/-- Content mapping of a request body with the or-else default of
mockServer.cjs line 268. -/
def requestBodyContent (rb : Json) : Json := jsOr (getField rb "content") (Json.obj [])

/-- Declared content types of a request body in key order (Object.keys,
mockServer.cjs line 269). -/
def contentTypeKeys (rb : Json) : List String :=
  (jsEntries (requestBodyContent rb)).map (fun p => p.1)

/-- Value stored under one content type of a request body. -/
def contentTypeVal (rb : Json) (ct : String) : Json := getField (requestBodyContent rb) ct

/-- Request body extraction, mockServer.cjs lines 267-310: required and
description with JS or-else defaults, the per-content-type records, and the
primary example chosen by the loop (initially null). -/
def extractRequestBody (rb : Json) (schemas : List (String × Json)) (fuel : Nat) : JsOut Json :=
  match processContentTypes (requestBodyContent rb) schemas fuel (contentTypeKeys rb) [] Json.null with
  | JsOut.thrown e => JsOut.thrown e
  | JsOut.noFuel => JsOut.noFuel
  | JsOut.ret out =>
    JsOut.ret (Json.obj [("required", jsOr (getField rb "required") (Json.bool false)),
      ("description", jsOr (getField rb "description") (Json.str "")),
      ("contentTypes", Json.obj out.1), ("example", out.2)])

/-- Per-content-type response record (mockServer.cjs lines 321-336): with a
truthy schema the schema is resolved and normalized, literal examples are
carried through, and no example is ever generated for responses. A null
content entry throws on the schema access, like JS. -/
def extractResponseContentItem (c : Json) (schemas : List (String × Json)) : JsOut Json := do
  let sch ← jsGet c "schema"
  if truthy sch then do
    let resolvedS ← resolveSchema sch schemas
    let full ← extractSchemaStructure (jsOr resolvedS sch) schemas 0
    pure (Json.obj [("schema", full), ("example", getField c "example"),
      ("examples", getField c "examples")])
  else
    pure (Json.obj [("schema", Json.null), ("example", getField c "example"),
      ("examples", getField c "examples")])

/-- Loop over the content entries of one response (mockServer.cjs lines
321-337). -/
def extractResponseContent (schemas : List (String × Json)) :
    List (String × Json) → List (String × Json) → JsOut (List (String × Json))
  | [], acc => JsOut.ret acc
  | (ct, c) :: rest, acc =>
    match extractResponseContentItem c schemas with
    | JsOut.thrown e => JsOut.thrown e
    | JsOut.noFuel => JsOut.noFuel
    | JsOut.ret item => extractResponseContent schemas rest (objSet acc ct item)

/-- Response header record (mockServer.cjs lines 344-348): description with
an or-else default, the schema normalized when truthy (without prior
reference resolution, unlike parameters and bodies) and the required flag. -/
def extractHeaderRecord (header : Json) (schemas : List (String × Json)) : JsOut Json := do
  let desc ← jsGet header "description"
  let schemaR ←
    if truthy (getField header "schema") then
      extractSchemaStructure (getField header "schema") schemas 0
    else pure Json.null
  pure (Json.obj [("description", jsOr desc (Json.str "")), ("schema", schemaR),
    ("required", jsOr (getField header "required") (Json.bool false))])

/-- Loop over the declared headers of one response (mockServer.cjs lines
341-350). -/
def extractHeaders (schemas : List (String × Json)) :
    List (String × Json) → List (String × Json) → JsOut (List (String × Json))
  | [], acc => JsOut.ret acc
  | (hn, header) :: rest, acc =>
    match extractHeaderRecord header schemas with
    | JsOut.thrown e => JsOut.thrown e
    | JsOut.noFuel => JsOut.noFuel
    | JsOut.ret r => extractHeaders schemas rest (objSet acc hn r)

/-- One status-code response record (mockServer.cjs lines 314-351):
description and content, plus a headers key added only when the response
declares truthy headers. -/
def extractResponseRecord (response : Json) (schemas : List (String × Json)) : JsOut Json := do
  let desc ← jsGet response "description"
  let contentFields ←
    if truthy (getField response "content") then
      extractResponseContent schemas (jsEntries (getField response "content")) []
    else pure []
  let baseRec := [("description", jsOr desc (Json.str "")), ("content", Json.obj contentFields)]
  if truthy (getField response "headers") then do
    let hs ← extractHeaders schemas (jsEntries (getField response "headers")) []
    pure (Json.obj (objSet baseRec "headers" (Json.obj hs)))
  else pure (Json.obj baseRec)

/-- Loop over the responses mapping of one operation (mockServer.cjs lines
313-352). -/
def extractAllResponses (schemas : List (String × Json)) :
    List (String × Json) → List (String × Json) → JsOut (List (String × Json))
  | [], acc => JsOut.ret acc
  | (status, response) :: rest, acc =>
    match extractResponseRecord response schemas with
    | JsOut.thrown e => JsOut.thrown e
    | JsOut.noFuel => JsOut.noFuel
    | JsOut.ret r => extractAllResponses schemas rest (objSet acc status r)

/-- Derived summary object assigned over the summary string (mockServer.cjs
lines 354-373), computed from the already-built parameter, request-body and
response structures. -/
def endpointSummary (buckets : ParamBuckets) (requestBody : Json)
    (responsesFields : List (String × Json)) : Json :=
  Json.obj [
    ("hasParameters", Json.bool (buckets.all.length != 0)),
    ("hasRequestBody", Json.bool (!(Json.beq requestBody Json.null))),
    ("parameterCount", Json.obj [
      ("path", Json.num (buckets.path.length : Int)),
      ("query", Json.num (buckets.query.length : Int)),
      ("header", Json.num (buckets.header.length : Int)),
      ("cookie", Json.num (buckets.cookie.length : Int)),
      ("total", Json.num (buckets.all.length : Int))]),
    ("requiredParameters", Json.arr
      ((buckets.all.filter (fun p => truthy (getField p "required"))).map
        (fun p => Json.obj [("name", getField p "name"), ("in", getField p "in"),
          ("type", getField p "type")]))),
    ("requestBodyRequired", jsOr (jsGetOpt requestBody "required") (Json.bool false)),
    ("requestBodyContentTypes",
      if truthy requestBody then
        Json.arr ((jsEntries (getField requestBody "contentTypes")).map (fun p => Json.str p.1))
      else Json.arr []),
    ("responseStatusCodes", Json.arr (responsesFields.map (fun p => Json.str p.1)))]

/-- One endpoint record (mockServer.cjs lines 197-375) for a truthy
operation found under a method key: metadata with or-else defaults,
parameters bucketed by location, optional request body, responses, security
with its two-stage fallback, and the summary object overwriting the summary
string in place, exactly as the final JS assignment does. -/
def buildEndpoint (swaggerData : Json) (schemas : List (String × Json)) (fuel : Nat)
    (path : String) (method : String) (op : Json) : JsOut Json := do
  let buckets ←
    match getField op "parameters" with
    | Json.arr l => extractParams schemas l ⟨[], [], [], [], []⟩
    | _ => pure ⟨[], [], [], [], []⟩
  let requestBody ←
    if truthy (getField op "requestBody") then
      extractRequestBody (getField op "requestBody") schemas fuel
    else pure Json.null
  let responsesFields ←
    if truthy (getField op "responses") then
      extractAllResponses schemas (jsEntries (getField op "responses")) []
    else pure []
  pure (Json.obj [
    ("path", Json.str path),
    ("method", Json.str (jsToUpper method)),
    ("summary", endpointSummary buckets requestBody responsesFields),
    ("description", jsOr (getField op "description") (Json.str "")),
    ("operationId", jsOr (getField op "operationId") (Json.str "")),
    ("tags", jsOr (getField op "tags") (Json.arr [])),
    ("parameters", Json.obj [("path", Json.arr buckets.path), ("query", Json.arr buckets.query),
      ("header", Json.arr buckets.header), ("cookie", Json.arr buckets.cookie),
      ("all", Json.arr buckets.all)]),
    ("requestBody", requestBody),
    ("responses", Json.obj responsesFields),
    ("security", jsOr (getField op "security") (jsOr (getField swaggerData "security") (Json.arr [])))])

/-- Inner loop over the fixed method list for one path item (mockServer.cjs
lines 195-376); a null path item throws on the method lookup, like JS. -/
def extractMethodsLoop (swaggerData : Json) (schemas : List (String × Json)) (fuel : Nat)
    (path : String) (pathItem : Json) : List String → List Json → JsOut (List Json)
  | [], acc => JsOut.ret acc
  | m :: rest, acc =>
    match jsGet pathItem m with
    | JsOut.thrown e => JsOut.thrown e
    | JsOut.noFuel => JsOut.noFuel
    | JsOut.ret op =>
      if truthy op then
        match buildEndpoint swaggerData schemas fuel path m op with
        | JsOut.thrown e => JsOut.thrown e
        | JsOut.noFuel => JsOut.noFuel
        | JsOut.ret ep => extractMethodsLoop swaggerData schemas fuel path pathItem rest (acc ++ [ep])
      else extractMethodsLoop swaggerData schemas fuel path pathItem rest acc

/-- Outer loop over the path entries (mockServer.cjs lines 191-378). -/
def extractPathsLoop (swaggerData : Json) (schemas : List (String × Json)) (fuel : Nat) :
    List (String × Json) → List Json → JsOut (List Json)
  | [], acc => JsOut.ret acc
  | (path, pathItem) :: rest, acc =>
    match extractMethodsLoop swaggerData schemas fuel path pathItem methodsList acc with
    | JsOut.thrown e => JsOut.thrown e
    | JsOut.noFuel => JsOut.noFuel
    | JsOut.ret acc2 => extractPathsLoop swaggerData schemas fuel rest acc2

/-- Endpoint Extractor, mockServer.cjs lines 184-381:
extractEndpointDetails(swaggerData). The schema table passed to the
resolver is the entries view of components.schemas (bracket lookup on
whatever value that is). The fuel argument is the recursion budget of the
synthesizer calls made for request-body examples. -/
def extractEndpointDetails (swaggerData : Json) (fuel : Nat) : JsOut (List Json) :=
  match jsGet swaggerData "paths" with
  | JsOut.thrown e => JsOut.thrown e
  | JsOut.noFuel => JsOut.noFuel
  | JsOut.ret pathsRaw =>
    let paths := jsOr pathsRaw (Json.obj [])
    let components := jsOr (getField swaggerData "components") (Json.obj [])
    let schemaTable := jsEntries (jsOr (getField components "schemas") (Json.obj []))
    extractPathsLoop swaggerData schemaTable fuel (jsEntries paths) []

/-- Process-wide mutable state of the server: the loaded document and the
mock route registry (mockServer.cjs lines 15-16). -/
structure ServerState where
  swaggerData : Json
  mockRoutes : List String

/-- Outcome of the outbound document fetch, an external collaborator of the
load handler (a successful response body, or a network or parse failure
carrying the error message surfaced by the handler). -/
inductive FetchResult where
  | success (doc : Json)
  | failure (errMsg : String)

/-- Status and JSON body of an HTTP reply. -/
structure HttpReply where
  status : Nat
  body : Json

/-- Mock route regeneration, mockServer.cjs lines 61-104 (setupMocks
together with clearMockRoutes): when the loaded document has no truthy
paths the registry is left untouched, otherwise it is replaced by one
converted path per path-and-method pair, in for-in order. Route
registration on the external router is modelled as this registry
replacement; the per-route response handlers belong to the out-of-scope
HTTP collaborator. A null document throws on the paths access, like JS. -/
def setupMocks (st : ServerState) : JsOut ServerState :=
  match jsGet st.swaggerData "paths" with
  | JsOut.thrown e => JsOut.thrown e
  | JsOut.noFuel => JsOut.noFuel
  | JsOut.ret paths =>
    if truthy paths = false then JsOut.ret st
    else JsOut.ret { st with mockRoutes :=
      ((jsEntries paths).map (fun p => (jsEntries p.2).map (fun _ => exprPath p.1))).flatten }

/-- Total page count, Math.ceil of total over limit for a positive limit
(mockServer.cjs lines 401 and 471). -/
def totalPagesOf (total limit : Nat) : Nat := (total + limit - 1) / limit

/-- Array slice from startIndex to endIndex for natural indices
(mockServer.cjs lines 402-404 and 472-474); pagination parameters are
modelled post-parse as naturals, the range the parseInt-with-default chains
of the handlers produce for ordinary requests. -/
def paginateEndpoints (eps : List Json) (page limit : Nat) : List Json :=
  (eps.drop ((page - 1) * limit)).take ((page - 1) * limit + limit - (page - 1) * limit)

/-- Pagination descriptor of both handlers (mockServer.cjs lines 422-429 and
477-484). -/
def paginationJson (total page limit : Nat) : Json :=
  Json.obj [("page", Json.num (page : Int)), ("limit", Json.num (limit : Int)),
    ("total", Json.num (total : Int)),
    ("totalPages", Json.num (totalPagesOf total limit : Int)),
    ("hasNextPage", Json.bool (decide (page < totalPagesOf total limit))),
    ("hasPreviousPage", Json.bool (decide (page > 1)))]

/-- Load handler, mockServer.cjs lines 386-441 (the richer variant; the
mockServer.js handler at lines 109-137 differs only after extraction).
Inputs are the prior state, the request body, the parsed pagination
parameters, the externally computed base URL and the fetch outcome; the
result pairs the state after the request with the reply, and is none when
the synthesizer inside extraction exhausts every recursion budget (the JS
request then dies on a stack overflow instead of replying). -/
def loadSwagger (st : ServerState) (reqBody : Json) (page limit : Nat) (baseUrl : String)
    (fetchResult : FetchResult) (fuel : Nat) : Option (ServerState × HttpReply) :=
  if truthy (getField reqBody "url") = false then
    some (st, ⟨400, Json.obj [("message", Json.str "Swagger URL is required")]⟩)
  else
    match fetchResult with
    | FetchResult.failure msg =>
        some (st, ⟨500, Json.obj [("message", Json.str "Failed to load Swagger"),
          ("error", Json.str msg)]⟩)
    | FetchResult.success doc =>
      let st1 : ServerState := { st with swaggerData := doc }
      match setupMocks st1 with
      | JsOut.thrown e =>
          some (st1, ⟨500, Json.obj [("message", Json.str "Failed to load Swagger"),
            ("error", Json.str e)]⟩)
      | JsOut.noFuel => none
      | JsOut.ret st2 =>
        match extractEndpointDetails doc fuel with
        | JsOut.thrown e =>
            some (st2, ⟨500, Json.obj [("message", Json.str "Failed to load Swagger"),
              ("error", Json.str e)]⟩)
        | JsOut.noFuel => none
        | JsOut.ret allEndpoints =>
          some (st2, ⟨200, Json.obj [
            ("message", Json.str "Mock API created successfully"),
            ("info", Json.obj [
              ("title", jsOr (jsGetOpt (getField doc "info") "title") (Json.str "")),
              ("description", jsOr (jsGetOpt (getField doc "info") "description") (Json.str "")),
              ("version", jsOr (jsGetOpt (getField doc "info") "version") (Json.str ""))]),
            ("pagination", paginationJson allEndpoints.length page limit),
            ("endpoints", Json.arr (paginateEndpoints allEndpoints page limit)),
            ("mockBaseUrl", Json.str baseUrl),
            ("securitySchemes", jsOr (jsGetOpt (getField doc "components") "securitySchemes") (Json.obj [])),
            ("servers", jsOr (getField doc "servers") (Json.arr []))]⟩)

/-- Leading-match test between character lists (helper for the JS string
includes used by the tag filter). -/
def charsLead : List Char → List Char → Bool
  | [], _ => true
  | _ :: _, [] => false
  | a :: as, b :: bs => a == b && charsLead as bs

/-- Substring occurrence test between character lists. -/
def charsIncl (t : List Char) : List Char → Bool
  | [] => charsLead t []
  | c :: rest => charsLead t (c :: rest) || charsIncl t rest

/-- The JS string includes method. -/
def strIncludes (s t : String) : Bool := charsIncl t.toList s.toList

/-- The JS includes call of the tag filter (mockServer.cjs line 467): arrays
test element membership by strict equality, strings test substring
occurrence, and every other receiver throws a TypeError. -/
def jsIncludes (j : Json) (x : Json) : JsOut Bool :=
  match j with
  | Json.arr l => JsOut.ret (l.any (fun e => Json.beq e x))
  | Json.str s =>
      match x with
      | Json.str t => JsOut.ret (strIncludes s t)
      | _ => JsOut.ret false
  | _ => JsOut.thrown "TypeError"

/-- Tag filter of the endpoints handler (mockServer.cjs lines 466-468),
propagating the exception a non-array tags value raises. -/
def filterByTag : List Json → String → JsOut (List Json)
  | [], _ => JsOut.ret []
  | ep :: rest, t =>
    match jsIncludes (getField ep "tags") (Json.str t) with
    | JsOut.thrown e => JsOut.thrown e
    | JsOut.noFuel => JsOut.noFuel
    | JsOut.ret b =>
      match filterByTag rest t with
      | JsOut.thrown e => JsOut.thrown e
      | JsOut.noFuel => JsOut.noFuel
      | JsOut.ret l => JsOut.ret (if b then ep :: l else l)

/-- Endpoints handler, mockServer.cjs lines 446-487: 404 before any
successful load, then extraction, the optional method and tag filters, and
pagination. A thrown outcome stands for an exception escaping the handler
(it has no try-catch), a noFuel outcome for synthesizer divergence. -/
def getEndpoints (st : ServerState) (page limit : Nat)
    (methodFilter tagFilter : Option String) (fuel : Nat) : JsOut HttpReply :=
  if truthy st.swaggerData = false then
    JsOut.ret ⟨404, Json.obj [("message",
      Json.str "No Swagger data loaded. Please call /load-swagger first.")]⟩
  else if truthy (getField st.swaggerData "paths") = false then
    JsOut.ret ⟨404, Json.obj [("message",
      Json.str "No Swagger data loaded. Please call /load-swagger first.")]⟩
  else
    match extractEndpointDetails st.swaggerData fuel with
    | JsOut.thrown e => JsOut.thrown e
    | JsOut.noFuel => JsOut.noFuel
    | JsOut.ret eps0 =>
      let eps1 :=
        match methodFilter with
        | some m => eps0.filter (fun ep => Json.beq (getField ep "method") (Json.str (jsToUpper m)))
        | none => eps0
      match (match tagFilter with
        | some t => filterByTag eps1 t
        | none => JsOut.ret eps1) with
      | JsOut.thrown e => JsOut.thrown e
      | JsOut.noFuel => JsOut.noFuel
      | JsOut.ret eps2 =>
        JsOut.ret ⟨200, Json.obj [("pagination", paginationJson eps2.length page limit),
          ("endpoints", Json.arr (paginateEndpoints eps2 page limit))]⟩

/-- Reference node pointing at a named component schema. -/
def refTo (name : String) : Json :=
  Json.obj [("$ref", Json.str (String.append "#/components/schemas/" name))]

/-- One-node self-referential component table: schema A is defined as a
reference to itself. -/
def cycComps : List (String × Json) := [("A", refTo "A")]

/-- Schema node referencing the self-referential component A. -/
def cycSchema : Json := refTo "A"

/-- Malformed node whose ref field is a truthy non-string. -/
def nonStringRefNode : Json := Json.obj [("$ref", Json.num 5)]

/-- Normalizer output for a node that resolves to a bare reference node: all
eleven metadata fields undefined and no structural branch taken. -/
def refChainResult : Json :=
  Json.obj [("type", Json.undef), ("format", Json.undef), ("description", Json.undef),
    ("example", Json.undef), ("default", Json.undef), ("enum", Json.undef),
    ("minimum", Json.undef), ("maximum", Json.undef), ("minLength", Json.undef),
    ("maxLength", Json.undef), ("pattern", Json.undef)]

/-- Twenty-component table in which each schema is a bare reference to the
next, cyclically: a schema that self-references through twenty levels of
refs. -/
def chainComps : List (String × Json) :=
  (List.range 20).map (fun i =>
    (String.append "A" (toString i), refTo (String.append "A" (toString ((i + 1) % 20)))))

/-- Entry node of the twenty-link reference chain. -/
def chainSchema : Json := refTo "A0"

/-- Component table whose single schema is an object holding a property that
references the component itself: self-reference reachable only through the
properties branch, which is what actually drives the depth counter. -/
def selfNestComps : List (String × Json) :=
  [("Node", Json.obj [("type", Json.str "object"),
    ("properties", Json.obj [("child", refTo "Node")])])]

/-- Expected normalizer output for the property-level self-reference: n
nested object records, the innermost child being the max-depth sentinel. -/
def nestedExpected : Nat → Json
  | 0 => maxDepthSentinel
  | n + 1 =>
    Json.obj [("type", Json.str "object"), ("format", Json.undef), ("description", Json.undef),
      ("example", Json.undef), ("default", Json.undef), ("enum", Json.undef),
      ("minimum", Json.undef), ("maximum", Json.undef), ("minLength", Json.undef),
      ("maxLength", Json.undef), ("pattern", Json.undef),
      ("properties", Json.obj [("child", nestedExpected n)]), ("required", Json.arr [])]

/-- Boolean schema node carrying the literal example false. -/
def boolExampleFalse : Json :=
  Json.obj [("type", Json.str "boolean"), ("example", Json.bool false)]

/-- Schema node referencing the absent component Foo. -/
def fooRefNode : Json := refTo "Foo"

/-- Reference node whose target is an external URL, not rooted at the local
components path. -/
def externalRefNode : Json :=
  Json.obj [("$ref", Json.str "https://example.com/schemas/Pet")]

/-- Object-typed node that also declares an items schema, triggering both
the object and the array branches of the normalizer. -/
def objWithItems : Json :=
  Json.obj [("type", Json.str "object"), ("properties", Json.obj []),
    ("items", Json.obj [("type", Json.str "string")])]

/-- Document whose single operation declares a parameter with a malformed
(truthy non-string) ref, making endpoint extraction throw after a
successful fetch. -/
def badParamDoc : Json :=
  Json.obj [("paths", Json.obj [("/a", Json.obj [("get", Json.obj [("parameters",
    Json.arr [Json.obj [("schema", nonStringRefNode)]])])])])]

/-- Server state holding a previously loaded document and one mock route. -/
def priorState : ServerState := ⟨Json.obj [("paths", Json.obj [])], ["/old"]⟩

/-- Request body with an application/json content type that supplies a
literal example but no schema. -/
def rbNoSchemaJson : Json :=
  Json.obj [("content", Json.obj [("application/json",
    Json.obj [("example", Json.str "LIT")])])]

/-- Request body whose application/json content type has a schema and the
falsy literal example zero. -/
def rbFalsyExample : Json :=
  Json.obj [("content", Json.obj [("application/json",
    Json.obj [("schema", Json.obj [("type", Json.str "integer")]),
      ("example", Json.num 0)])])]

/-- Document with one hundred and twenty paths carrying one get operation
each. -/
def bigDoc : Json :=
  Json.obj [("paths", Json.obj ((List.range 120).map (fun i =>
    (String.append "/p" (toString i), Json.obj [("get", Json.obj [])]))))]

/-- Object-typed node with one string property and a required list, used to
exercise the object branch of the normalizer. -/
def c6Node : Json :=
  Json.obj [("type", Json.str "object"),
    ("properties", Json.obj [("a", Json.obj [("type", Json.str "string")])]),
    ("required", Json.arr [Json.str "a"])]

/-- Request body whose application/json content type carries both a schema
and a truthy literal example. -/
def rbJsonWithSchema : Json :=
  Json.obj [("content", Json.obj [("application/json", Json.obj [
    ("schema", Json.obj [("type", Json.str "string")]), ("example", Json.str "E")])])]

/-- The one hundred and twenty endpoint records extracted from bigDoc. -/
def bigDocEndpoints : List Json :=
  match extractEndpointDetails bigDoc 1 with
  | JsOut.ret l => l
  | JsOut.thrown _ => []
  | JsOut.noFuel => []

theorem jsoBind_ret {α β : Type} (v : α) (k : α → JsOut β) : jsoBind (JsOut.ret v) k = k v := rfl

theorem jsoBind_thrown {α β : Type} (m : String) (k : α → JsOut β) :
    jsoBind (JsOut.thrown m) k = JsOut.thrown m := rfl

theorem jsoBind_noFuel {α β : Type} (k : α → JsOut β) :
    jsoBind (JsOut.noFuel : JsOut α) k = JsOut.noFuel := rfl

theorem bind_eq_jsoBind {α β : Type} (x : JsOut α) (k : α → JsOut β) : x >>= k = jsoBind x k := rfl

theorem pure_eq_ret {α : Type} (v : α) : (pure v : JsOut α) = JsOut.ret v := rfl

mutual

theorem Json.beq_refl : (a : Json) → Json.beq a a = true
  | .undef => rfl
  | .null => rfl
  | .bool b => by simp [Json.beq]
  | .num n => by simp [Json.beq]
  | .str s => by simp [Json.beq]
  | .arr l => by simp only [Json.beq]; exact Json.beqArr_refl l
  | .obj l => by simp only [Json.beq]; exact Json.beqObj_refl l

theorem Json.beqArr_refl : (l : List Json) → Json.beqArr l l = true
  | [] => rfl
  | a :: as => by
      simp only [Json.beqArr, Bool.and_eq_true]
      exact ⟨Json.beq_refl a, Json.beqArr_refl as⟩

theorem Json.beqObj_refl : (l : List (String × Json)) → Json.beqObj l l = true
  | [] => rfl
  | (k, v) :: as => by
      simp only [Json.beqObj, Bool.and_eq_true, beq_self_eq_true, true_and]
      exact ⟨Json.beq_refl v, Json.beqObj_refl as⟩

end

theorem Json.ne_of_beq_false (a b : Json) (h : Json.beq a b = false) : a ≠ b := by
  intro he
  rw [he, Json.beq_refl b] at h
  exact Bool.noConfusion h

theorem truthy_of_getField_ne_undef (j : Json) (k : String) (h : getField j k ≠ Json.undef) :
    truthy j = true := by
  cases j <;> first | rfl | exact absurd rfl h

theorem jsoFoldObj_ne_noFuel (f : Json → JsOut Json) :
    ∀ (l acc : List (String × Json)), (∀ p ∈ l, f p.2 ≠ JsOut.noFuel) →
      jsoFoldObj f acc l ≠ JsOut.noFuel := by
  intro l
  induction l with
  | nil => intro acc _ h; exact JsOut.noConfusion h
  | cons p rest ih =>
    intro acc hl
    obtain ⟨k, v⟩ := p
    simp only [jsoFoldObj]
    have hv : f v ≠ JsOut.noFuel := hl (k, v) (List.mem_cons_self _ _)
    cases hfv : f v with
    | ret r => exact ih (objSet acc k r) (fun q hq => hl q (List.mem_cons_of_mem _ hq))
    | thrown e => intro h; exact JsOut.noConfusion h
    | noFuel => exact absurd hfv hv

theorem jsoMapM_ne_noFuel (f : Json → JsOut Json) :
    ∀ l : List Json, (∀ j ∈ l, f j ≠ JsOut.noFuel) → jsoMapM f l ≠ JsOut.noFuel := by
  intro l
  induction l with
  | nil => intro _ h; exact JsOut.noConfusion h
  | cons j rest ih =>
    intro hl
    simp only [jsoMapM]
    cases hfj : f j with
    | ret v =>
      have hr := ih (fun q hq => hl q (List.mem_cons_of_mem _ hq))
      cases hrest : jsoMapM f rest with
      | ret vs => intro h; exact JsOut.noConfusion h
      | thrown e => intro h; exact JsOut.noConfusion h
      | noFuel => exact absurd hrest hr
    | thrown e => intro h; exact JsOut.noConfusion h
    | noFuel => exact absurd hfj (hl j (List.mem_cons_self _ _))

theorem resolveSchema_ne_noFuel (s : Json) (c : List (String × Json)) :
    resolveSchema s c ≠ JsOut.noFuel := by
  simp only [resolveSchema]
  repeat' split
  all_goals intro h
  all_goals exact JsOut.noConfusion h

theorem compBranch_ne_noFuel (recur : Json → JsOut Json) (resolved : Json) (key : String)
    (acc : List (String × Json)) (hrec : ∀ j, recur j ≠ JsOut.noFuel) :
    compBranch recur resolved key acc ≠ JsOut.noFuel := by
  unfold compBranch
  split
  · split
    · rename_i l _
      cases hm : jsoMapM recur l with
      | ret vs => intro h; exact JsOut.noConfusion h
      | thrown e => intro h; exact JsOut.noConfusion h
      | noFuel => exact absurd hm (jsoMapM_ne_noFuel recur l (fun j _ => hrec j))
    · intro h; exact JsOut.noConfusion h
  · intro h; exact JsOut.noConfusion h

theorem objBranch_ne_noFuel (recur : Json → JsOut Json) (resolved : Json)
    (acc : List (String × Json)) (hrec : ∀ j, recur j ≠ JsOut.noFuel) :
    objBranch recur resolved acc ≠ JsOut.noFuel := by
  unfold objBranch
  split
  · cases hm : jsoFoldObj recur [] (jsEntries (jsOr (getField resolved "properties") (Json.obj []))) with
    | ret props => intro h; exact JsOut.noConfusion h
    | thrown e => intro h; exact JsOut.noConfusion h
    | noFuel => exact absurd hm (jsoFoldObj_ne_noFuel recur _ [] (fun p _ => hrec p.2))
  · intro h; exact JsOut.noConfusion h

theorem arrBranch_ne_noFuel (recur : Json → JsOut Json) (resolved : Json)
    (acc : List (String × Json)) (hrec : ∀ j, recur j ≠ JsOut.noFuel) :
    arrBranch recur resolved acc ≠ JsOut.noFuel := by
  unfold arrBranch
  split
  · cases hm : recur (getField resolved "items") with
    | ret itemsR => intro h; exact JsOut.noConfusion h
    | thrown e => intro h; exact JsOut.noConfusion h
    | noFuel => exact absurd hm (hrec _)
  · intro h; exact JsOut.noConfusion h

theorem extractCore_ne_noFuel (recur : Json → JsOut Json) (resolved : Json)
    (hrec : ∀ j, recur j ≠ JsOut.noFuel) : extractCore recur resolved ≠ JsOut.noFuel := by
  unfold extractCore
  cases h1 : objBranch recur resolved (metadataFields resolved) with
  | thrown e => dsimp only; intro h; exact JsOut.noConfusion h
  | noFuel => exact absurd h1 (objBranch_ne_noFuel recur resolved _ hrec)
  | ret r1 =>
    dsimp only
    cases h2 : arrBranch recur resolved r1 with
    | thrown e => dsimp only; intro h; exact JsOut.noConfusion h
    | noFuel => exact absurd h2 (arrBranch_ne_noFuel recur resolved r1 hrec)
    | ret r2 =>
      dsimp only
      cases h3 : compBranch recur resolved "allOf" r2 with
      | thrown e => dsimp only; intro h; exact JsOut.noConfusion h
      | noFuel => exact absurd h3 (compBranch_ne_noFuel recur resolved "allOf" r2 hrec)
      | ret r3 =>
        dsimp only
        cases h4 : compBranch recur resolved "anyOf" r3 with
        | thrown e => dsimp only; intro h; exact JsOut.noConfusion h
        | noFuel => exact absurd h4 (compBranch_ne_noFuel recur resolved "anyOf" r3 hrec)
        | ret r4 =>
          dsimp only
          cases h5 : compBranch recur resolved "oneOf" r4 with
          | thrown e => dsimp only; intro h; exact JsOut.noConfusion h
          | noFuel => exact absurd h5 (compBranch_ne_noFuel recur resolved "oneOf" r4 hrec)
          | ret r5 => dsimp only; intro h; exact JsOut.noConfusion h

theorem extractAux_ne_noFuel : ∀ (fuel : Nat) (s : Json) (c : List (String × Json)),
    extractAux fuel s c ≠ JsOut.noFuel := by
  intro fuel
  induction fuel with
  | zero => intro s c h; exact JsOut.noConfusion h
  | succ n ih =>
    intro s c
    simp only [extractAux]
    split
    · intro h; exact JsOut.noConfusion h
    · cases hres : resolveSchema s c with
      | ret resolved =>
        simp only [hres]
        split
        · intro h; exact JsOut.noConfusion h
        · exact extractCore_ne_noFuel _ resolved (fun j => ih j c)
      | thrown e => simp only [hres]; intro h; exact JsOut.noConfusion h
      | noFuel => exact absurd hres (resolveSchema_ne_noFuel s c)

theorem getField_cons (p : String × Json) (rest : List (String × Json)) (k : String) :
    getField (Json.obj (p :: rest)) k = if p.1 == k then p.2 else getField (Json.obj rest) k := by
  by_cases h : p.1 == k <;> simp [getField, List.find?, h]

theorem objSet_not_mem (fs : List (String × Json)) (k : String) (v : Json)
    (h : fs.any (fun kv => kv.1 == k) = false) : objSet fs k v = fs ++ [(k, v)] := by
  simp only [objSet, h]
  rfl

theorem getField_append_single_ne (fs : List (String × Json)) (k k2 : String) (v : Json)
    (hne : k2 ≠ k) : getField (Json.obj (fs ++ [(k, v)])) k2 = getField (Json.obj fs) k2 := by
  induction fs with
  | nil =>
    have : (k == k2) = false := by simp [Ne.symm hne]
    simp [getField, List.find?, this]
  | cons p rest ih =>
    rw [List.cons_append, getField_cons, getField_cons, ih]

theorem getField_append_single_self (fs : List (String × Json)) (k : String) (v : Json)
    (h : fs.any (fun kv => kv.1 == k) = false) :
    getField (Json.obj (fs ++ [(k, v)])) k = v := by
  induction fs with
  | nil => simp [getField, List.find?]
  | cons p rest ih =>
    simp only [List.any_cons, Bool.or_eq_false_iff] at h
    rw [List.cons_append, getField_cons, h.1]
    exact ih h.2

theorem getField_map_set_self (fs : List (String × Json)) (k : String) (v : Json)
    (h : fs.any (fun kv => kv.1 == k) = true) :
    getField (Json.obj (fs.map (fun kv => if kv.1 == k then (k, v) else kv))) k = v := by
  induction fs with
  | nil => simp at h
  | cons p rest ih =>
    simp only [List.any_cons, Bool.or_eq_true] at h
    by_cases hp : (p.1 == k) = true
    · rw [List.map_cons, if_pos hp, getField_cons]
      simp
    · rw [List.map_cons, if_neg hp, getField_cons, if_neg hp]
      exact ih (h.resolve_left hp)

theorem getField_map_set_ne (fs : List (String × Json)) (k k2 : String) (v : Json)
    (hne : k2 ≠ k) :
    getField (Json.obj (fs.map (fun kv => if kv.1 == k then (k, v) else kv))) k2 =
      getField (Json.obj fs) k2 := by
  induction fs with
  | nil => rfl
  | cons p rest ih =>
    by_cases hp : (p.1 == k) = true
    · have hpk : p.1 = k := by simpa using hp
      rw [List.map_cons, if_pos hp, getField_cons, getField_cons, ih]
      have h1 : (k == k2) = false := by simp [Ne.symm hne]
      have h2 : (p.1 == k2) = false := by simp [hpk, Ne.symm hne]
      simp [h1, h2]
    · rw [List.map_cons, if_neg hp, getField_cons, getField_cons, ih]

theorem getField_objSet_self (fs : List (String × Json)) (k : String) (v : Json) :
    getField (Json.obj (objSet fs k v)) k = v := by
  unfold objSet
  by_cases h : fs.any (fun kv => kv.1 == k) = true
  · simp only [h, if_true]
    exact getField_map_set_self fs k v h
  · have hf : fs.any (fun kv => kv.1 == k) = false := by
      cases hx : fs.any (fun kv => kv.1 == k)
      · rfl
      · exact absurd hx h
    simp only [hf, Bool.false_eq_true, if_false]
    exact getField_append_single_self fs k v hf

theorem getField_objSet_ne (fs : List (String × Json)) (k k2 : String) (v : Json)
    (hne : k2 ≠ k) : getField (Json.obj (objSet fs k v)) k2 = getField (Json.obj fs) k2 := by
  unfold objSet
  by_cases h : fs.any (fun kv => kv.1 == k) = true
  · simp only [h, if_true]
    exact getField_map_set_ne fs k k2 v hne
  · have hf : fs.any (fun kv => kv.1 == k) = false := by
      cases hx : fs.any (fun kv => kv.1 == k)
      · rfl
      · exact absurd hx h
    simp only [hf, Bool.false_eq_true, if_false]
    exact getField_append_single_ne fs k k2 v hne

theorem jsoFoldObj_all_ret (f : Json → JsOut Json) :
    ∀ (l acc : List (String × Json)), (∀ p ∈ l, ∃ v, f p.2 = JsOut.ret v) →
      jsoFoldObj f acc l =
        JsOut.ret (l.foldl (fun a kv => objSet a kv.1 (retValue (f kv.2))) acc) := by
  intro l
  induction l with
  | nil => intro acc _; rfl
  | cons p rest ih =>
    intro acc hl
    obtain ⟨k, v⟩ := p
    obtain ⟨w, hw⟩ := hl (k, v) (List.mem_cons_self _ _)
    simp only [jsoFoldObj, hw, List.foldl_cons, retValue]
    exact ih (objSet acc k w) (fun q hq => hl q (List.mem_cons_of_mem _ hq))

theorem foldl_objSet_append (g : String × Json → Json) :
    ∀ (l acc : List (String × Json)), (l.map Prod.fst).Nodup →
      (∀ k ∈ l.map Prod.fst, acc.any (fun kv => kv.1 == k) = false) →
      l.foldl (fun a kv => objSet a kv.1 (g kv)) acc = acc ++ l.map (fun kv => (kv.1, g kv)) := by
  intro l
  induction l with
  | nil => intro acc _ _; simp
  | cons p rest ih =>
    intro acc hnd hdisj
    obtain ⟨k, v⟩ := p
    simp only [List.map_cons, List.nodup_cons] at hnd
    have hk : acc.any (fun kv => kv.1 == k) = false := hdisj k (by simp)
    simp only [List.foldl_cons]
    rw [objSet_not_mem acc k (g (k, v)) hk]
    rw [ih (acc ++ [(k, g (k, v))]) hnd.2]
    · simp
    · intro k2 hk2
      have hne : k ≠ k2 := fun he => hnd.1 (he ▸ hk2)
      simp only [List.any_append, Bool.or_eq_false_iff]
      refine ⟨hdisj k2 (by simp [hk2]), ?_⟩
      simp [List.any_cons, hne]

theorem processCT_primary_preserved (content : Json) (schemas : List (String × Json)) (fuel : Nat) :
    ∀ (cts : List String) (ctAcc : List (String × Json)) (ex : Json)
      (out : List (String × Json) × Json),
      (∀ ct ∈ cts, ct ≠ "application/json" ∨ truthy (jsGetOpt (getField content ct) "schema") = false) →
      processContentTypes content schemas fuel cts ctAcc ex = JsOut.ret out → out.2 = ex := by
  intro cts
  induction cts with
  | nil =>
    intro ctAcc ex out _ h
    simp only [processContentTypes] at h
    cases h
    rfl
  | cons ct rest ih =>
    intro ctAcc ex out hcts h
    simp only [processContentTypes] at h
    cases hrec : contentTypeRecord (getField content ct) schemas fuel with
    | thrown e => rw [hrec] at h; exact JsOut.noConfusion h
    | noFuel => rw [hrec] at h; exact JsOut.noConfusion h
    | ret ctRec =>
      rw [hrec] at h
      dsimp only at h
      have hcond : (truthy (jsGetOpt (getField content ct) "schema") && !(truthy ex) &&
          (ct == "application/json")) = false := by
        rcases hcts ct (List.mem_cons_self _ _) with hne | hf
        · have hb : (ct == "application/json") = false := by simp [hne]
          simp [hb]
        · simp [hf]
      rw [hcond] at h
      simp only [Bool.false_eq_true, if_false] at h
      exact ih _ ex out (fun c hc => hcts c (List.mem_cons_of_mem _ hc)) h

theorem processCT_key_preserved (content : Json) (schemas : List (String × Json)) (fuel : Nat)
    (k : String) :
    ∀ (cts : List String) (ctAcc : List (String × Json)) (ex : Json)
      (out : List (String × Json) × Json),
      (∀ ct ∈ cts, ct ≠ k) →
      processContentTypes content schemas fuel cts ctAcc ex = JsOut.ret out →
      getField (Json.obj out.1) k = getField (Json.obj ctAcc) k := by
  intro cts
  induction cts with
  | nil =>
    intro ctAcc ex out _ h
    simp only [processContentTypes] at h
    cases h
    rfl
  | cons ct rest ih =>
    intro ctAcc ex out hcts h
    simp only [processContentTypes] at h
    cases hrec : contentTypeRecord (getField content ct) schemas fuel with
    | thrown e => rw [hrec] at h; exact JsOut.noConfusion h
    | noFuel => rw [hrec] at h; exact JsOut.noConfusion h
    | ret ctRec =>
      rw [hrec] at h
      dsimp only at h
      have hne : k ≠ ct := fun he => (hcts ct (List.mem_cons_self _ _)) he.symm
      have hstep : getField (Json.obj (objSet ctAcc ct ctRec)) k = getField (Json.obj ctAcc) k :=
        getField_objSet_ne ctAcc ct k ctRec hne
      by_cases hcond : (truthy (jsGetOpt (getField content ct) "schema") && !(truthy ex) &&
          (ct == "application/json")) = true
      · rw [if_pos hcond] at h
        cases hprim : primaryExampleOf (getField content ct) schemas fuel with
        | thrown e => rw [hprim] at h; exact JsOut.noConfusion h
        | noFuel => rw [hprim] at h; exact JsOut.noConfusion h
        | ret prim =>
          rw [hprim] at h
          dsimp only at h
          rw [ih _ prim out (fun c hc => hcts c (List.mem_cons_of_mem _ hc)) h]
          exact hstep
      · rw [if_neg hcond] at h
        rw [ih _ ex out (fun c hc => hcts c (List.mem_cons_of_mem _ hc)) h]
        exact hstep

theorem processCT_record (content : Json) (schemas : List (String × Json)) (fuel : Nat) :
    ∀ (cts : List String) (ctAcc : List (String × Json)) (ex : Json)
      (out : List (String × Json) × Json) (ct : String),
      cts.Nodup → ct ∈ cts →
      (∀ ct2 ∈ cts, ctAcc.any (fun kv => kv.1 == ct2) = false) →
      processContentTypes content schemas fuel cts ctAcc ex = JsOut.ret out →
      ∃ r, contentTypeRecord (getField content ct) schemas fuel = JsOut.ret r ∧
        getField (Json.obj out.1) ct = r := by
  intro cts
  induction cts with
  | nil => intro _ _ _ ct _ hmem _ _; exact absurd hmem (List.not_mem_nil ct)
  | cons ct0 rest ih =>
    intro ctAcc ex out ct hnd hmem hdisj h
    simp only [processContentTypes] at h
    cases hrec : contentTypeRecord (getField content ct0) schemas fuel with
    | thrown e => rw [hrec] at h; exact JsOut.noConfusion h
    | noFuel => rw [hrec] at h; exact JsOut.noConfusion h
    | ret ctRec =>
      rw [hrec] at h
      dsimp only at h
      simp only [List.nodup_cons] at hnd
      rcases List.mem_cons.mp hmem with hct | hct
      · subst hct
        refine ⟨ctRec, hrec, ?_⟩
        have hpr : ∀ c ∈ rest, c ≠ ct := fun c hc he => hnd.1 (he ▸ hc)
        have hacc : getField (Json.obj (objSet ctAcc ct ctRec)) ct = ctRec :=
          getField_objSet_self ctAcc ct ctRec
        by_cases hcond : (truthy (jsGetOpt (getField content ct) "schema") && !(truthy ex) &&
            (ct == "application/json")) = true
        · rw [if_pos hcond] at h
          cases hprim : primaryExampleOf (getField content ct) schemas fuel with
          | thrown e => rw [hprim] at h; exact JsOut.noConfusion h
          | noFuel => rw [hprim] at h; exact JsOut.noConfusion h
          | ret prim =>
            rw [hprim] at h
            dsimp only at h
            rw [processCT_key_preserved content schemas fuel ct rest _ prim out hpr h]
            exact hacc
        · rw [if_neg hcond] at h
          rw [processCT_key_preserved content schemas fuel ct rest _ ex out hpr h]
          exact hacc
      · have hobj : objSet ctAcc ct0 ctRec = ctAcc ++ [(ct0, ctRec)] :=
          objSet_not_mem ctAcc ct0 ctRec (hdisj ct0 (List.mem_cons_self _ _))
        have hdisj2 : ∀ ct2 ∈ rest, (objSet ctAcc ct0 ctRec).any (fun kv => kv.1 == ct2) = false := by
          intro ct2 hct2
          rw [hobj]
          simp only [List.any_append, Bool.or_eq_false_iff]
          refine ⟨hdisj ct2 (List.mem_cons_of_mem _ hct2), ?_⟩
          have hne02 : ct0 ≠ ct2 := fun he => hnd.1 (he ▸ hct2)
          simp [hne02]
        by_cases hcond : (truthy (jsGetOpt (getField content ct0) "schema") && !(truthy ex) &&
            (ct0 == "application/json")) = true
        · rw [if_pos hcond] at h
          cases hprim : primaryExampleOf (getField content ct0) schemas fuel with
          | thrown e => rw [hprim] at h; exact JsOut.noConfusion h
          | noFuel => rw [hprim] at h; exact JsOut.noConfusion h
          | ret prim =>
            rw [hprim] at h
            dsimp only at h
            exact ih _ prim out ct hnd.2 hct hdisj2 h
        · rw [if_neg hcond] at h
          exact ih _ ex out ct hnd.2 hct hdisj2 h

theorem processCT_primary_set (content : Json) (schemas : List (String × Json)) (fuel : Nat) :
    ∀ (pre post : List String) (ctAcc : List (String × Json))
      (out : List (String × Json) × Json),
      (∀ ct ∈ pre, ct ≠ "application/json" ∨ truthy (jsGetOpt (getField content ct) "schema") = false) →
      (∀ ct ∈ post, ct ≠ "application/json") →
      truthy (jsGetOpt (getField content "application/json") "schema") = true →
      processContentTypes content schemas fuel (pre ++ "application/json" :: post) ctAcc Json.null =
        JsOut.ret out →
      primaryExampleOf (getField content "application/json") schemas fuel = JsOut.ret out.2 := by
  intro pre
  induction pre with
  | nil =>
    intro post ctAcc out _ hpost hs h
    simp only [List.nil_append, processContentTypes] at h
    cases hrec : contentTypeRecord (getField content "application/json") schemas fuel with
    | thrown e => rw [hrec] at h; exact JsOut.noConfusion h
    | noFuel => rw [hrec] at h; exact JsOut.noConfusion h
    | ret ctRec =>
      rw [hrec] at h
      dsimp only at h
      have hcond : (truthy (jsGetOpt (getField content "application/json") "schema") &&
          !(truthy Json.null) && ("application/json" == "application/json")) = true := by
        have hnull : truthy Json.null = false := rfl
        simp [hs, hnull]
      rw [if_pos hcond] at h
      cases hprim : primaryExampleOf (getField content "application/json") schemas fuel with
      | thrown e => rw [hprim] at h; exact JsOut.noConfusion h
      | noFuel => rw [hprim] at h; exact JsOut.noConfusion h
      | ret prim =>
        rw [hprim] at h
        dsimp only at h
        have hp : out.2 = prim := processCT_primary_preserved content schemas fuel post _ prim out
          (fun c hc => Or.inl (hpost c hc)) h
        rw [hp]
  | cons ct0 pre2 ih =>
    intro post ctAcc out hpre hpost hs h
    simp only [List.cons_append, processContentTypes] at h
    cases hrec : contentTypeRecord (getField content ct0) schemas fuel with
    | thrown e => rw [hrec] at h; exact JsOut.noConfusion h
    | noFuel => rw [hrec] at h; exact JsOut.noConfusion h
    | ret ctRec =>
      rw [hrec] at h
      dsimp only at h
      have hcond : (truthy (jsGetOpt (getField content ct0) "schema") && !(truthy Json.null) &&
          (ct0 == "application/json")) = false := by
        rcases hpre ct0 (List.mem_cons_self _ _) with hne | hf
        · have hb : (ct0 == "application/json") = false := by simp [hne]
          simp [hb]
        · simp [hf]
      rw [hcond] at h
      simp only [Bool.false_eq_true, if_false] at h
      exact ih post _ out (fun c hc => hpre c (List.mem_cons_of_mem _ hc)) hpost hs h

theorem contentTypeRecord_gen_null (ctVal : Json) (schemas : List (String × Json)) (fuel : Nat)
    (r : Json) (hs : truthy (jsGetOpt ctVal "schema") = true)
    (hl : truthy (jsGetOpt ctVal "example") = true)
    (h : contentTypeRecord ctVal schemas fuel = JsOut.ret r) :
    getField r "generatedExample" = Json.null := by
  unfold contentTypeRecord at h
  rw [if_pos hs] at h
  cases hres : resolveSchema (jsGetOpt ctVal "schema") schemas with
  | thrown e => rw [hres] at h; exact JsOut.noConfusion h
  | noFuel => rw [hres] at h; exact JsOut.noConfusion h
  | ret rs =>
    rw [hres] at h
    dsimp only at h
    cases hfull : extractSchemaStructure (jsOr rs (jsGetOpt ctVal "schema")) schemas 0 with
    | thrown e => rw [hfull] at h; exact JsOut.noConfusion h
    | noFuel => rw [hfull] at h; exact JsOut.noConfusion h
    | ret full =>
      rw [hfull] at h
      dsimp only at h
      rw [if_pos hl] at h
      dsimp only at h
      cases h
      rfl

theorem contentTypeRecord_gen_mock (ctVal : Json) (schemas : List (String × Json)) (fuel : Nat)
    (r : Json) (hs : truthy (jsGetOpt ctVal "schema") = true)
    (hl : truthy (jsGetOpt ctVal "example") = false)
    (h : contentTypeRecord ctVal schemas fuel = JsOut.ret r) :
    ∃ rs, resolveSchema (jsGetOpt ctVal "schema") schemas = JsOut.ret rs ∧
      generateMockFromSchema fuel (jsOr rs (jsGetOpt ctVal "schema")) schemas =
        JsOut.ret (getField r "generatedExample") := by
  unfold contentTypeRecord at h
  rw [if_pos hs] at h
  cases hres : resolveSchema (jsGetOpt ctVal "schema") schemas with
  | thrown e => rw [hres] at h; exact JsOut.noConfusion h
  | noFuel => rw [hres] at h; exact JsOut.noConfusion h
  | ret rs =>
    rw [hres] at h
    dsimp only at h
    cases hfull : extractSchemaStructure (jsOr rs (jsGetOpt ctVal "schema")) schemas 0 with
    | thrown e => rw [hfull] at h; exact JsOut.noConfusion h
    | noFuel => rw [hfull] at h; exact JsOut.noConfusion h
    | ret full =>
      rw [hfull] at h
      dsimp only at h
      rw [if_neg (by simp [hl])] at h
      cases hgen : generateMockFromSchema fuel (jsOr rs (jsGetOpt ctVal "schema")) schemas with
      | thrown e => rw [hgen] at h; exact JsOut.noConfusion h
      | noFuel => rw [hgen] at h; exact JsOut.noConfusion h
      | ret g =>
        rw [hgen] at h
        dsimp only at h
        cases h
        exact ⟨rs, rfl, hgen⟩

theorem primaryExampleOf_lit (ctVal : Json) (schemas : List (String × Json)) (fuel : Nat)
    (p : Json) (hl : truthy (jsGetOpt ctVal "example") = true)
    (h : primaryExampleOf ctVal schemas fuel = JsOut.ret p) : p = jsGetOpt ctVal "example" := by
  unfold primaryExampleOf at h
  cases hres : resolveSchema (jsGetOpt ctVal "schema") schemas with
  | thrown e => rw [hres] at h; exact JsOut.noConfusion h
  | noFuel => rw [hres] at h; exact JsOut.noConfusion h
  | ret rs =>
    rw [hres] at h
    dsimp only at h
    rw [if_pos hl] at h
    cases h
    rfl

theorem primaryExampleOf_gen (ctVal : Json) (schemas : List (String × Json)) (fuel : Nat)
    (p : Json) (hl : truthy (jsGetOpt ctVal "example") = false)
    (h : primaryExampleOf ctVal schemas fuel = JsOut.ret p) :
    ∃ rs, resolveSchema (jsGetOpt ctVal "schema") schemas = JsOut.ret rs ∧
      generateMockFromSchema fuel (jsOr rs (jsGetOpt ctVal "schema")) schemas = JsOut.ret p := by
  unfold primaryExampleOf at h
  cases hres : resolveSchema (jsGetOpt ctVal "schema") schemas with
  | thrown e => rw [hres] at h; exact JsOut.noConfusion h
  | noFuel => rw [hres] at h; exact JsOut.noConfusion h
  | ret rs =>
    rw [hres] at h
    dsimp only at h
    rw [if_neg (by simp [hl])] at h
    exact ⟨rs, rfl, h⟩

theorem extractRequestBody_inv (rb : Json) (schemas : List (String × Json)) (fuel : Nat)
    (r : Json) (h : extractRequestBody rb schemas fuel = JsOut.ret r) :
    ∃ out, processContentTypes (requestBodyContent rb) schemas fuel
        (contentTypeKeys rb) [] Json.null = JsOut.ret out ∧
      getField r "example" = out.2 ∧
      getField r "contentTypes" = Json.obj out.1 := by
  unfold extractRequestBody at h
  cases hp : processContentTypes (requestBodyContent rb) schemas fuel
      (contentTypeKeys rb) [] Json.null with
  | thrown e => rw [hp] at h; exact JsOut.noConfusion h
  | noFuel => rw [hp] at h; exact JsOut.noConfusion h
  | ret out =>
    rw [hp] at h
    dsimp only at h
    cases h
    exact ⟨out, rfl, rfl, rfl⟩

theorem resolveSchema_falsy (s : Json) (c : List (String × Json)) (h : truthy s = false) :
    resolveSchema s c = JsOut.ret Json.null := by
  simp [resolveSchema, h]

theorem resolveSchema_no_ref (s : Json) (c : List (String × Json)) (h1 : truthy s = true)
    (h2 : truthy (getField s "$ref") = false) : resolveSchema s c = JsOut.ret s := by
  simp [resolveSchema, h1, h2]

theorem resolveSchema_ref_components (node : Json) (c : List (String × Json)) (s : String)
    (h : getField node "$ref" = Json.str s) (hs : s ≠ "")
    (hroot : ((jsSplit s).getD 0 "" == "#" && (jsSplit s).getD 1 "" == "components") = true) :
    resolveSchema node c = JsOut.ret (jsOr (lookupComponent c ((jsSplit s).getLastD "")) Json.null) := by
  have ht := truthy_of_getField_ne_undef node "$ref" (by rw [h]; exact fun hq => Json.noConfusion hq)
  have hts : truthy (Json.str s) = true := by simp [truthy, hs]
  unfold resolveSchema
  rw [if_neg (fun hq => by rw [ht] at hq; exact Bool.noConfusion hq)]
  dsimp only
  rw [h, if_pos hts]
  dsimp only
  rw [if_pos hroot]

theorem resolveSchema_ref_other (node : Json) (c : List (String × Json)) (s : String)
    (h : getField node "$ref" = Json.str s) (hs : s ≠ "")
    (hroot : ((jsSplit s).getD 0 "" == "#" && (jsSplit s).getD 1 "" == "components") = false) :
    resolveSchema node c = JsOut.ret node := by
  have ht := truthy_of_getField_ne_undef node "$ref" (by rw [h]; exact fun hq => Json.noConfusion hq)
  have hts : truthy (Json.str s) = true := by simp [truthy, hs]
  unfold resolveSchema
  rw [if_neg (fun hq => by rw [ht] at hq; exact Bool.noConfusion hq)]
  dsimp only
  rw [h, if_pos hts]
  dsimp only
  rw [if_neg (fun hq => by rw [hroot] at hq; exact Bool.noConfusion hq)]

theorem resolveSchema_ref_nonstring (node : Json) (c : List (String × Json))
    (h1 : truthy (getField node "$ref") = true)
    (h2 : ∀ s, getField node "$ref" ≠ Json.str s) :
    resolveSchema node c = JsOut.thrown "TypeError" := by
  have ht : truthy node = true := truthy_of_getField_ne_undef node "$ref"
    (fun hq => by rw [hq] at h1; exact Bool.noConfusion h1)
  unfold resolveSchema
  rw [if_neg (fun hq => by rw [ht] at hq; exact Bool.noConfusion hq)]
  dsimp only
  rw [if_pos h1]
  cases hr : getField node "$ref" with
  | str s => exact absurd hr (h2 s)
  | undef => rfl
  | null => rfl
  | bool b => rfl
  | num n => rfl
  | arr l => rfl
  | obj fs => rfl

theorem generateMock_ref_step (fuel : Nat) (schema : Json) (components : List (String × Json))
    (s : String) (h : getField schema "$ref" = Json.str s) (hs : s ≠ "") :
    generateMockFromSchema (fuel + 1) schema components =
      generateMockFromSchema fuel (lookupComponent components ((jsSplit s).getLastD "")) components := by
  have ht : truthy schema = true := truthy_of_getField_ne_undef schema "$ref"
    (by rw [h]; exact fun hq => Json.noConfusion hq)
  have hts : truthy (Json.str s) = true := by simp [truthy, hs]
  simp [generateMockFromSchema, ht, h, hts]

theorem generateMock_cyc_diverges :
    ∀ fuel, generateMockFromSchema fuel cycSchema cycComps = JsOut.noFuel := by
  intro fuel
  induction fuel with
  | zero => rfl
  | succ n ih => exact ih

theorem extract_depth_exceeded (s : Json) (c : List (String × Json)) (d : Nat) (h : d > 10) :
    extractSchemaStructure s c d = JsOut.ret maxDepthSentinel := by
  unfold extractSchemaStructure
  have hz : 11 - d = 0 := by omega
  rw [hz]
  rfl

set_option maxRecDepth 8000

/-- C1 (amended): the Schema Normalizer terminates on every JSON-shaped node,
component table and depth, its recursion being bounded by the depth guard
alone (it never exhausts a recursion budget), and on the one-node
self-referential component table it still returns a value; the Example
Synthesizer, by contrast, exhausts every recursion budget on that table
(the JS call overflows the stack), and neither function is exception-free:
a node whose ref field is a truthy non-string makes both throw a TypeError. -/
theorem normalizer_total_synthesizer_partial :
    (∀ (s : Json) (c : List (String × Json)) (d : Nat),
      extractSchemaStructure s c d ≠ JsOut.noFuel) ∧
    (∀ fuel, generateMockFromSchema fuel cycSchema cycComps = JsOut.noFuel) ∧
    (∀ fuel, generateMockFromSchema (fuel + 1) nonStringRefNode [] = JsOut.thrown "TypeError") ∧
    (extractSchemaStructure nonStringRefNode [] 0 = JsOut.thrown "TypeError") ∧
    (extractSchemaStructure cycSchema cycComps 0 = JsOut.ret refChainResult) := by
  refine ⟨?_, generateMock_cyc_diverges, ?_, rfl, rfl⟩
  · intro s c d
    exact extractAux_ne_noFuel (11 - d) s c
  · intro fuel
    rfl

/-- C1 witness: the totality conjunct applied at a concrete input. -/
theorem normalizer_total_witness : extractSchemaStructure Json.null [] 0 ≠ JsOut.noFuel :=
  normalizer_total_synthesizer_partial.1 Json.null [] 0

/-- C1 counterexample: on the malformed node whose ref field is the number
five, both the Normalizer and the Synthesizer raise a TypeError instead of
returning a value, refuting the claim that every call returns without
raising. -/
theorem totality_claim_counterexample :
    extractSchemaStructure nonStringRefNode [] 0 = JsOut.thrown "TypeError" ∧
    generateMockFromSchema 2 nonStringRefNode [] = JsOut.thrown "TypeError" :=
  ⟨rfl, rfl⟩

/-- C2 (amended): normalize called with depth exceeding ten returns the
sentinel immediately, for every node and table; but a schema that
self-references through twenty levels of bare refs is resolved only one
level and returns the metadata-empty record, not the sentinel (the depth
counter never advances, because recursion happens only through properties,
items and composition branches); a self-reference routed through a property
does drive the depth up and embeds the sentinel at nesting depth eleven. -/
theorem maxDepth_sentinel_behavior :
    (∀ (s : Json) (c : List (String × Json)) (d : Nat), d > 10 →
      extractSchemaStructure s c d = JsOut.ret maxDepthSentinel) ∧
    (extractSchemaStructure chainSchema chainComps 0 = JsOut.ret refChainResult) ∧
    (extractSchemaStructure (refTo "Node") selfNestComps 0 = JsOut.ret (nestedExpected 11)) :=
  ⟨extract_depth_exceeded, rfl, rfl⟩

/-- C2 witness: the sentinel conjunct applied at depth eleven. -/
theorem maxDepth_sentinel_witness :
    11 > 10 ∧ extractSchemaStructure Json.null [] 11 = JsOut.ret maxDepthSentinel :=
  ⟨by decide, maxDepth_sentinel_behavior.1 Json.null [] 11 (by decide)⟩

/-- C2 counterexample: the twenty-link ref chain terminates but returns the
metadata-empty record, which is not the max-depth sentinel. -/
theorem refChain_no_sentinel_counterexample :
    extractSchemaStructure chainSchema chainComps 0 = JsOut.ret refChainResult ∧
    refChainResult ≠ maxDepthSentinel :=
  ⟨rfl, Json.ne_of_beq_false _ _ rfl⟩

/-- C3 (amended): the Synthesizer dispatches on the declared type of a
resolved node (truthy, with no truthy ref): arrays yield exactly two
elements, both the synthesis of the items schema; string, integer, number
and boolean yield the node's example when that example is truthy and the
documented literal default otherwise (the JS or-else, so a falsy example
such as false, zero or the empty string falls back to the default); any
other or missing type yields the literal mock value string. -/
theorem synthesize_dispatch (fuel : Nat) (schema : Json) (components : List (String × Json))
    (ht : truthy schema = true) (href : truthy (getField schema "$ref") = false) :
    (∀ a, getField schema "type" = Json.str "array" →
      generateMockFromSchema fuel (getField schema "items") components = JsOut.ret a →
      generateMockFromSchema (fuel + 1) schema components = JsOut.ret (Json.arr [a, a])) ∧
    (getField schema "type" = Json.str "string" →
      generateMockFromSchema (fuel + 1) schema components =
        JsOut.ret (jsOr (getField schema "example") (Json.str "example string"))) ∧
    (getField schema "type" = Json.str "integer" →
      generateMockFromSchema (fuel + 1) schema components =
        JsOut.ret (jsOr (getField schema "example") (Json.num 123))) ∧
    (getField schema "type" = Json.str "number" →
      generateMockFromSchema (fuel + 1) schema components =
        JsOut.ret (jsOr (getField schema "example") (Json.num 123))) ∧
    (getField schema "type" = Json.str "boolean" →
      generateMockFromSchema (fuel + 1) schema components =
        JsOut.ret (jsOr (getField schema "example") (Json.bool true))) ∧
    (getField schema "type" ∉ [Json.str "object", Json.str "array", Json.str "string",
        Json.str "integer", Json.str "number", Json.str "boolean"] →
      generateMockFromSchema (fuel + 1) schema components = JsOut.ret (Json.str "mock value")) := by
  refine ⟨?_, ?_, ?_, ?_, ?_, ?_⟩
  · intro a hty hit
    simp [generateMockFromSchema, ht, href, hty, hit]
  · intro hty
    simp [generateMockFromSchema, ht, href, hty]
  · intro hty
    simp [generateMockFromSchema, ht, href, hty]
  · intro hty
    simp [generateMockFromSchema, ht, href, hty]
  · intro hty
    simp [generateMockFromSchema, ht, href, hty]
  · intro hmem
    cases hty : getField schema "type" with
    | str s =>
      rw [hty] at hmem
      simp only [List.mem_cons, List.not_mem_nil, or_false, not_or] at hmem
      simp only [generateMockFromSchema, ht, Bool.true_eq_false, if_false, href, hty]
      split <;> simp_all
    | undef => simp [generateMockFromSchema, ht, href, hty]
    | null => simp [generateMockFromSchema, ht, href, hty]
    | bool b => simp [generateMockFromSchema, ht, href, hty]
    | num n => simp [generateMockFromSchema, ht, href, hty]
    | arr l => simp [generateMockFromSchema, ht, href, hty]
    | obj fs => simp [generateMockFromSchema, ht, href, hty]

/-- C3 witness: the boolean clause applied to a boolean schema without an
example yields true. -/
theorem synthesize_dispatch_witness :
    generateMockFromSchema 1 (Json.obj [("type", Json.str "boolean")]) [] =
      JsOut.ret (Json.bool true) :=
  (synthesize_dispatch 0 (Json.obj [("type", Json.str "boolean")]) [] rfl rfl).2.2.2.2.1 rfl

/-- C3 counterexample: a boolean schema carrying the literal example false
synthesizes true, not the supplied example, because the JS or-else discards
falsy examples; this refutes the claim that a present example is returned. -/
theorem synthesize_falsy_example_counterexample :
    generateMockFromSchema 1 boolExampleFalse [] = JsOut.ret (Json.bool true) ∧
    Json.bool true ≠ Json.bool false :=
  ⟨rfl, Json.ne_of_beq_false _ _ rfl⟩

/-- C4 (amended): the Reference Resolver returns null for absent or falsy
nodes; returns a truthy node with no truthy ref unchanged; for a truthy
string ref it splits on slashes and, when the first segment is the hash and
the second the components segment, returns the table entry under the last
segment (null when absent or falsy); any other string ref leaves the node
unchanged; and a truthy non-string ref raises a TypeError. It remains a
pure function of its two inputs. -/
theorem resolveSchema_behavior :
    (∀ (node : Json) (c : List (String × Json)), truthy node = false →
      resolveSchema node c = JsOut.ret Json.null) ∧
    (∀ (node : Json) (c : List (String × Json)), truthy node = true →
      truthy (getField node "$ref") = false → resolveSchema node c = JsOut.ret node) ∧
    (∀ (node : Json) (c : List (String × Json)) (s : String),
      getField node "$ref" = Json.str s → s ≠ "" →
      ((jsSplit s).getD 0 "" == "#" && (jsSplit s).getD 1 "" == "components") = true →
      resolveSchema node c =
        JsOut.ret (jsOr (lookupComponent c ((jsSplit s).getLastD "")) Json.null)) ∧
    (∀ (node : Json) (c : List (String × Json)) (s : String),
      getField node "$ref" = Json.str s → s ≠ "" →
      ((jsSplit s).getD 0 "" == "#" && (jsSplit s).getD 1 "" == "components") = false →
      resolveSchema node c = JsOut.ret node) ∧
    (∀ (node : Json) (c : List (String × Json)), truthy (getField node "$ref") = true →
      (∀ s, getField node "$ref" ≠ Json.str s) →
      resolveSchema node c = JsOut.thrown "TypeError") :=
  ⟨resolveSchema_falsy, resolveSchema_no_ref, resolveSchema_ref_components,
    resolveSchema_ref_other, resolveSchema_ref_nonstring⟩

/-- C4 witness: the components-rooted clause at a missing name and the
as-is clause at an external URL reference. -/
theorem resolveSchema_behavior_witness :
    resolveSchema fooRefNode [] = JsOut.ret Json.null ∧
    resolveSchema externalRefNode [] = JsOut.ret externalRefNode := by
  constructor
  · exact resolveSchema_behavior.2.2.1 fooRefNode [] "#/components/schemas/Foo" rfl
      (by decide) (by decide)
  · exact resolveSchema_behavior.2.2.2.1 externalRefNode [] "https://example.com/schemas/Pet" rfl
      (by decide) (by decide)

/-- C4 counterexample: the node false is present and carries no reference,
yet resolve returns null rather than the node unchanged; and the node whose
ref field is the number five raises a TypeError instead of being returned. -/
theorem resolve_claim_counterexample :
    resolveSchema (Json.bool false) [] = JsOut.ret Json.null ∧
    Json.null ≠ Json.bool false ∧
    resolveSchema nonStringRefNode [] = JsOut.thrown "TypeError" :=
  ⟨rfl, Json.ne_of_beq_false _ _ rfl, rfl⟩

/-- C5: for every schema node referencing the absent component Foo, resolve
returns null, normalize returns null, and synthesize returns its null-safe
fallback null; none of the three raises. -/
theorem missing_component_null_safe (node : Json) (comps : List (String × Json))
    (href : getField node "$ref" = Json.str "#/components/schemas/Foo")
    (habs : lookupComponent comps "Foo" = Json.undef) :
    resolveSchema node comps = JsOut.ret Json.null ∧
    extractSchemaStructure node comps 0 = JsOut.ret Json.null ∧
    (∀ n, generateMockFromSchema (n + 1 + 1) node comps = JsOut.ret Json.null) := by
  have hlast : (jsSplit "#/components/schemas/Foo").getLastD "" = "Foo" := rfl
  have hres : resolveSchema node comps = JsOut.ret Json.null := by
    rw [resolveSchema_ref_components node comps _ href (by decide) (by decide), hlast, habs]
    rfl
  have ht : truthy node = true := truthy_of_getField_ne_undef node "$ref"
    (by rw [href]; exact fun hq => Json.noConfusion hq)
  refine ⟨hres, ?_, ?_⟩
  · show extractAux (10 + 1) node comps = JsOut.ret Json.null
    simp only [extractAux, ht, Bool.true_eq_false, if_false, hres]
    rfl
  · intro n
    rw [generateMock_ref_step (n + 1) node comps _ href (by decide), hlast, habs]
    rfl

/-- C5 witness: the theorem applied to the bare reference node and the
empty component table. -/
theorem missing_component_witness :
    resolveSchema fooRefNode [] = JsOut.ret Json.null ∧
    extractSchemaStructure fooRefNode [] 0 = JsOut.ret Json.null ∧
    generateMockFromSchema 2 fooRefNode [] = JsOut.ret Json.null := by
  have h := missing_component_null_safe fooRefNode [] rfl rfl
  exact ⟨h.1, h.2.1, h.2.2 0⟩

/-- C10: the Synthesizer resolves a truthy string ref of any form by looking
up the segment after the final slash in the local component table and
recursing on the result, yielding null one step later when the name is
absent; unlike the Resolver, which returns references not rooted at the
local components path as-is. -/
theorem synthesize_ref_any_form (fuel : Nat) (node : Json) (comps : List (String × Json))
    (s : String) (h : getField node "$ref" = Json.str s) (hs : s ≠ "") :
    (generateMockFromSchema (fuel + 1) node comps =
      generateMockFromSchema fuel (lookupComponent comps ((jsSplit s).getLastD "")) comps) ∧
    (lookupComponent comps ((jsSplit s).getLastD "") = Json.undef →
      generateMockFromSchema (fuel + 1 + 1) node comps = JsOut.ret Json.null) ∧
    (((jsSplit s).getD 0 "" == "#" && (jsSplit s).getD 1 "" == "components") = false →
      resolveSchema node comps = JsOut.ret node) := by
  refine ⟨generateMock_ref_step fuel node comps s h hs, ?_, ?_⟩
  · intro habs
    rw [generateMock_ref_step (fuel + 1) node comps s h hs, habs]
    rfl
  · intro hroot
    exact resolveSchema_ref_other node comps s h hs hroot

/-- C10 witness: the theorem applied to an external URL reference over the
empty component table; the lookup key is the segment after the final slash. -/
theorem synthesize_ref_any_form_witness :
    (generateMockFromSchema 1 externalRefNode [] =
      generateMockFromSchema 0 (lookupComponent [] "Pet") []) ∧
    (generateMockFromSchema 2 externalRefNode [] = JsOut.ret Json.null) ∧
    (resolveSchema externalRefNode [] = JsOut.ret externalRefNode) := by
  have h := synthesize_ref_any_form 0 externalRefNode [] "https://example.com/schemas/Pet" rfl
    (by decide)
  exact ⟨h.1, h.2.1 rfl, h.2.2 (by decide)⟩

theorem Json.beq_str_iff (x : Json) (s : String) :
    Json.beq x (Json.str s) = true ↔ x = Json.str s := by
  cases x <;> simp [Json.beq]

/-- C6 (amended): for a resolved node taking the object branch (type is the
object string or properties truthy) that does not also trigger the array
branch (type not the array string and items falsy) and has falsy
composition keys, normalize at depth within the bound returns an object
record whose type is the object string, whose properties mapping binds
exactly the declared property keys, in order, each to the recursive
normalization of that property at depth plus one (assuming those
normalizations return), and whose required field is the source required
list, defaulting to the empty array when absent. -/
theorem normalize_object_branch (node : Json) (comps : List (String × Json)) (depth : Nat)
    (pfs : List (String × Json))
    (hd : depth ≤ 10)
    (ht : truthy node = true)
    (href : truthy (getField node "$ref") = false)
    (hobj : getField node "type" = Json.str "object" ∨ truthy (getField node "properties") = true)
    (harr : getField node "type" ≠ Json.str "array")
    (hitems : truthy (getField node "items") = false)
    (hallOf : truthy (getField node "allOf") = false)
    (hanyOf : truthy (getField node "anyOf") = false)
    (honeOf : truthy (getField node "oneOf") = false)
    (hpfs : jsEntries (jsOr (getField node "properties") (Json.obj [])) = pfs)
    (hnd : (pfs.map Prod.fst).Nodup)
    (hsucc : ∀ p ∈ pfs, ∃ v, extractSchemaStructure p.2 comps (depth + 1) = JsOut.ret v) :
    ∃ r : List (String × Json),
      extractSchemaStructure node comps depth = JsOut.ret (Json.obj r) ∧
      getField (Json.obj r) "type" = Json.str "object" ∧
      getField (Json.obj r) "properties" =
        Json.obj (pfs.map (fun p => (p.1, retValue (extractSchemaStructure p.2 comps (depth + 1))))) ∧
      (jsEntries (getField (Json.obj r) "properties")).length = pfs.length ∧
      (getField node "required" = Json.undef → getField (Json.obj r) "required" = Json.arr []) ∧
      (∀ l, getField node "required" = Json.arr l → getField (Json.obj r) "required" = Json.arr l) := by
  obtain ⟨n, hn⟩ : ∃ n, 11 - depth = n + 1 := ⟨10 - depth, by omega⟩
  have hrecur : ∀ j, extractSchemaStructure j comps (depth + 1) = extractAux n j comps := by
    intro j
    unfold extractSchemaStructure
    have hq : 11 - (depth + 1) = n := by omega
    rw [hq]
  have hcond : (Json.beq (getField node "type") (Json.str "object") ||
      truthy (getField node "properties")) = true := by
    rcases hobj with hx | hx
    · simp [hx, Json.beq_refl]
    · simp [hx]
  have hbarr : Json.beq (getField node "type") (Json.str "array") = false := by
    cases hx : Json.beq (getField node "type") (Json.str "array")
    · rfl
    · exact absurd ((Json.beq_str_iff _ _).mp hx) harr
  have hacond : (Json.beq (getField node "type") (Json.str "array") ||
      truthy (getField node "items")) = false := by
    simp [hbarr, hitems]
  have hsucc2 : ∀ p ∈ pfs, ∃ v, extractAux n p.2 comps = JsOut.ret v := by
    intro p hp
    obtain ⟨v, hv⟩ := hsucc p hp
    exact ⟨v, by rw [← hrecur p.2]; exact hv⟩
  have hfold : jsoFoldObj (fun j => extractAux n j comps) [] pfs =
      JsOut.ret (pfs.map (fun p => (p.1, retValue (extractAux n p.2 comps)))) := by
    rw [jsoFoldObj_all_ret (fun j => extractAux n j comps) pfs [] hsucc2]
    congr 1
    rw [foldl_objSet_append (fun kv => retValue (extractAux n kv.2 comps)) pfs [] hnd
      (fun k _ => rfl)]
    simp
  have hob : objBranch (fun j => extractAux n j comps) node (metadataFields node) =
      JsOut.ret (objSet (objSet (objSet (metadataFields node) "type" (Json.str "object"))
        "properties" (Json.obj (pfs.map (fun p => (p.1, retValue (extractAux n p.2 comps))))))
        "required" (jsOr (getField node "required") (Json.arr []))) := by
    unfold objBranch
    rw [if_pos hcond, hpfs, hfold]
  have hab : ∀ acc, arrBranch (fun j => extractAux n j comps) node acc = JsOut.ret acc := by
    intro acc
    unfold arrBranch
    rw [if_neg (fun hq => by rw [hacond] at hq; exact Bool.noConfusion hq)]
  have hcb : ∀ key acc, truthy (getField node key) = false →
      compBranch (fun j => extractAux n j comps) node key acc = JsOut.ret acc := by
    intro key acc hk
    unfold compBranch
    rw [if_neg (fun hq => by rw [hk] at hq; exact Bool.noConfusion hq)]
  have hres : resolveSchema node comps = JsOut.ret node := resolveSchema_no_ref node comps ht href
  refine ⟨objSet (objSet (objSet (metadataFields node) "type" (Json.str "object"))
      "properties" (Json.obj (pfs.map (fun p => (p.1, retValue (extractAux n p.2 comps))))))
      "required" (jsOr (getField node "required") (Json.arr [])), ?_, ?_, ?_, ?_, ?_, ?_⟩
  · unfold extractSchemaStructure
    rw [hn]
    simp only [extractAux, ht, Bool.true_eq_false, if_false, hres]
    unfold extractCore
    rw [hob]
    dsimp only
    rw [hab]
    dsimp only
    rw [hcb "allOf" _ hallOf]
    dsimp only
    rw [hcb "anyOf" _ hanyOf]
    dsimp only
    rw [hcb "oneOf" _ honeOf]
  · rw [getField_objSet_ne _ _ _ _ (by decide), getField_objSet_ne _ _ _ _ (by decide)]
    exact getField_objSet_self _ "type" _
  · rw [getField_objSet_ne _ _ _ _ (by decide), getField_objSet_self]
    congr 1
    apply List.map_congr_left
    intro p _
    rw [hrecur p.2]
  · rw [getField_objSet_ne _ _ _ _ (by decide), getField_objSet_self]
    simp [jsEntries]
  · intro h0
    rw [getField_objSet_self, h0]
    rfl
  · intro l hl
    rw [getField_objSet_self, hl]
    rfl

/-- C6 witness: the theorem applied to a concrete object node with one
string property and a required list. -/
theorem normalize_object_branch_witness :
    ∃ r : List (String × Json),
      extractSchemaStructure c6Node [] 0 = JsOut.ret (Json.obj r) ∧
      getField (Json.obj r) "type" = Json.str "object" ∧
      getField (Json.obj r) "properties" =
        Json.obj ([(("a" : String), Json.obj [("type", Json.str "string")])].map
          (fun p => (p.1, retValue (extractSchemaStructure p.2 [] 1)))) ∧
      (jsEntries (getField (Json.obj r) "properties")).length = 1 ∧
      getField (Json.obj r) "required" = Json.arr [Json.str "a"] := by
  have h := normalize_object_branch c6Node [] 0
    [("a", Json.obj [("type", Json.str "string")])]
    (by decide) rfl rfl (Or.inl rfl) (Json.ne_of_beq_false _ _ rfl) rfl rfl rfl rfl rfl
    (by decide)
    (fun p hp => by
      simp only [List.mem_singleton] at hp
      subst hp
      exact ⟨_, rfl⟩)
  obtain ⟨r, h1, h2, h3, h4, h5, h6⟩ := h
  exact ⟨r, h1, h2, h3, h4, h6 [Json.str "a"] rfl⟩

/-- C6 counterexample: an object-typed node that also declares items ends up
with type array in the normalized record, because the array branch runs
after the object branch and overwrites the forced object type; this refutes
the claim for nodes that also trigger the array branch. -/
theorem object_with_items_counterexample :
    getField (retValue (extractSchemaStructure objWithItems [] 0)) "type" = Json.str "array" ∧
    Json.str "array" ≠ Json.str "object" :=
  ⟨rfl, Json.ne_of_beq_false _ _ rfl⟩

/-- C7 (amended): a load request with a falsy url answers 400 and leaves the
state untouched, and a fetch failure answers 500 and leaves the state
untouched; but when the fetch succeeds and endpoint extraction then throws,
the handler answers 500 with the newly fetched document already installed
and the mock routes already regenerated, so a failed load after a
successful fetch does not preserve the prior state. -/
theorem load_swagger_error_paths :
    (∀ (st : ServerState) (reqBody : Json) (page limit : Nat) (baseUrl : String)
      (fetchResult : FetchResult) (fuel : Nat), truthy (getField reqBody "url") = false →
      loadSwagger st reqBody page limit baseUrl fetchResult fuel =
        some (st, ⟨400, Json.obj [("message", Json.str "Swagger URL is required")]⟩)) ∧
    (∀ (st : ServerState) (reqBody : Json) (page limit : Nat) (baseUrl : String)
      (msg : String) (fuel : Nat), truthy (getField reqBody "url") = true →
      loadSwagger st reqBody page limit baseUrl (FetchResult.failure msg) fuel =
        some (st, ⟨500, Json.obj [("message", Json.str "Failed to load Swagger"),
          ("error", Json.str msg)]⟩)) ∧
    (loadSwagger priorState (Json.obj [("url", Json.str "http://u")]) 1 50 "base"
        (FetchResult.success badParamDoc) 5 =
      some (⟨badParamDoc, ["/a"]⟩, ⟨500, Json.obj [("message", Json.str "Failed to load Swagger"),
        ("error", Json.str "TypeError")]⟩)) ∧
    ((⟨badParamDoc, ["/a"]⟩ : ServerState) ≠ priorState) := by
  refine ⟨?_, ?_, rfl, ?_⟩
  · intro st reqBody page limit baseUrl fetchResult fuel h
    unfold loadSwagger
    rw [if_pos h]
  · intro st reqBody page limit baseUrl msg fuel h
    unfold loadSwagger
    rw [if_neg (fun hq => by rw [h] at hq; exact Bool.noConfusion hq)]
  · intro h
    exact absurd (congrArg ServerState.mockRoutes h) (by decide)

/-- C7 witness: the unchanged-state conjuncts applied at concrete inputs. -/
theorem load_swagger_error_paths_witness :
    loadSwagger priorState (Json.obj []) 1 50 "base" (FetchResult.failure "boom") 0 =
      some (priorState, ⟨400, Json.obj [("message", Json.str "Swagger URL is required")]⟩) ∧
    loadSwagger priorState (Json.obj [("url", Json.str "http://u")]) 1 50 "base"
        (FetchResult.failure "boom") 0 =
      some (priorState, ⟨500, Json.obj [("message", Json.str "Failed to load Swagger"),
        ("error", Json.str "boom")]⟩) :=
  ⟨load_swagger_error_paths.1 priorState (Json.obj []) 1 50 "base" (FetchResult.failure "boom") 0 rfl,
    load_swagger_error_paths.2.1 priorState (Json.obj [("url", Json.str "http://u")]) 1 50 "base"
      "boom" 0 rfl⟩

/-- C7 counterexample: after a successful fetch of a document whose one
parameter carries a malformed ref, the handler reports 500 but the state
now holds the new document and the regenerated route list, refuting the
claim that any failed load leaves the prior state exactly as it was. -/
theorem load_swagger_mutation_counterexample :
    loadSwagger priorState (Json.obj [("url", Json.str "http://u")]) 1 50 "base"
        (FetchResult.success badParamDoc) 5 =
      some (⟨badParamDoc, ["/a"]⟩, ⟨500, Json.obj [("message", Json.str "Failed to load Swagger"),
        ("error", Json.str "TypeError")]⟩) ∧
    ((⟨badParamDoc, ["/a"]⟩ : ServerState) ≠ priorState) :=
  ⟨rfl, fun h => absurd (congrArg ServerState.mockRoutes h) (by decide)⟩

/-- C9: for every extraction producing one hundred and twenty endpoint
records, page two with limit fifty yields exactly the records at positions
fifty-one through one hundred (the slice from index fifty of length fifty),
with hasNextPage and hasPreviousPage both true, and the endpoints handler
returns exactly that slice and pagination. -/
theorem pagination_page2_limit50 (eps : List Json) (st : ServerState) (fuel : Nat)
    (h1 : truthy st.swaggerData = true)
    (h2 : truthy (getField st.swaggerData "paths") = true)
    (hex : extractEndpointDetails st.swaggerData fuel = JsOut.ret eps)
    (hlen : eps.length = 120) :
    paginateEndpoints eps 2 50 = (eps.drop 50).take 50 ∧
    (∀ i, i < 50 → (paginateEndpoints eps 2 50)[i]? = eps[50 + i]?) ∧
    getField (paginationJson eps.length 2 50) "hasNextPage" = Json.bool true ∧
    getField (paginationJson eps.length 2 50) "hasPreviousPage" = Json.bool true ∧
    getEndpoints st 2 50 none none fuel = JsOut.ret ⟨200,
      Json.obj [("pagination", paginationJson eps.length 2 50),
        ("endpoints", Json.arr ((eps.drop 50).take 50))]⟩ := by
  have hpag : paginateEndpoints eps 2 50 = (eps.drop 50).take 50 := rfl
  refine ⟨hpag, ?_, ?_, ?_, ?_⟩
  · intro i hi
    rw [hpag]
    rw [List.getElem?_take_of_lt hi, List.getElem?_drop]
  · rw [hlen]
    rfl
  · rw [hlen]
    rfl
  · unfold getEndpoints
    rw [if_neg (fun hq => by rw [h1] at hq; exact Bool.noConfusion hq)]
    rw [if_neg (fun hq => by rw [h2] at hq; exact Bool.noConfusion hq)]
    rw [hex]
    dsimp only
    rw [hpag]

/-- C9 witness: the theorem applied to the state holding the document with
one hundred and twenty paths. -/
theorem pagination_page2_limit50_witness :
    paginateEndpoints bigDocEndpoints 2 50 = (bigDocEndpoints.drop 50).take 50 ∧
    getField (paginationJson bigDocEndpoints.length 2 50) "hasNextPage" = Json.bool true ∧
    getField (paginationJson bigDocEndpoints.length 2 50) "hasPreviousPage" = Json.bool true ∧
    getEndpoints ⟨bigDoc, []⟩ 2 50 none none 1 = JsOut.ret ⟨200,
      Json.obj [("pagination", paginationJson bigDocEndpoints.length 2 50),
        ("endpoints", Json.arr ((bigDocEndpoints.drop 50).take 50))]⟩ := by
  have h := pagination_page2_limit50 bigDocEndpoints ⟨bigDoc, []⟩ 1 rfl rfl rfl rfl
  exact ⟨h.1, h.2.2.1, h.2.2.2.1, h.2.2.2.2⟩

/-- C8 (amended): in an extracted request body, a content type with a truthy
schema gets a generated example exactly when its literal example is falsy
(a falsy-but-present literal example, such as zero, still triggers
generation) and a null generated example when the literal example is
truthy; the single primary example is assigned only while processing an
application/json content type whose schema is truthy: the literal example
if truthy, else a synthesizer run; when no such schema-bearing
application/json content type exists, the primary example stays null, even
if that content type supplies a literal example without a schema. -/
theorem requestBody_example_selection (rb : Json) (schemas : List (String × Json)) (fuel : Nat)
    (r : Json) (hnd : (contentTypeKeys rb).Nodup)
    (hr : extractRequestBody rb schemas fuel = JsOut.ret r) :
    ((∀ ct ∈ contentTypeKeys rb, ct ≠ "application/json" ∨
        truthy (jsGetOpt (contentTypeVal rb ct) "schema") = false) →
      getField r "example" = Json.null) ∧
    ("application/json" ∈ contentTypeKeys rb →
      truthy (jsGetOpt (contentTypeVal rb "application/json") "schema") = true →
      truthy (jsGetOpt (contentTypeVal rb "application/json") "example") = true →
      getField r "example" = jsGetOpt (contentTypeVal rb "application/json") "example") ∧
    ("application/json" ∈ contentTypeKeys rb →
      truthy (jsGetOpt (contentTypeVal rb "application/json") "schema") = true →
      truthy (jsGetOpt (contentTypeVal rb "application/json") "example") = false →
      ∃ rs, resolveSchema (jsGetOpt (contentTypeVal rb "application/json") "schema") schemas =
          JsOut.ret rs ∧
        generateMockFromSchema fuel
          (jsOr rs (jsGetOpt (contentTypeVal rb "application/json") "schema")) schemas =
          JsOut.ret (getField r "example")) ∧
    (∀ ct ∈ contentTypeKeys rb, truthy (jsGetOpt (contentTypeVal rb ct) "schema") = true →
      truthy (jsGetOpt (contentTypeVal rb ct) "example") = true →
      getField (getField (getField r "contentTypes") ct) "generatedExample" = Json.null) ∧
    (∀ ct ∈ contentTypeKeys rb, truthy (jsGetOpt (contentTypeVal rb ct) "schema") = true →
      truthy (jsGetOpt (contentTypeVal rb ct) "example") = false →
      ∃ rs, resolveSchema (jsGetOpt (contentTypeVal rb ct) "schema") schemas = JsOut.ret rs ∧
        generateMockFromSchema fuel (jsOr rs (jsGetOpt (contentTypeVal rb ct) "schema")) schemas =
          JsOut.ret (getField (getField (getField r "contentTypes") ct) "generatedExample")) := by
  obtain ⟨out, hout, hexa, hctf⟩ := extractRequestBody_inv rb schemas fuel r hr
  have hprimary : "application/json" ∈ contentTypeKeys rb →
      truthy (jsGetOpt (contentTypeVal rb "application/json") "schema") = true →
      primaryExampleOf (contentTypeVal rb "application/json") schemas fuel = JsOut.ret out.2 := by
    intro hmem hs
    obtain ⟨pre, post, hsplit⟩ := List.append_of_mem hmem
    have hnd2 : (pre ++ "application/json" :: post).Nodup := hsplit ▸ hnd
    rw [List.nodup_append] at hnd2
    have hpre : ∀ c ∈ pre, c ≠ "application/json" := fun c hc he =>
      hnd2.2.2 hc (by rw [he]; exact List.mem_cons_self _ _)
    have hpost : ∀ c ∈ post, c ≠ "application/json" := by
      have hq := hnd2.2.1
      rw [List.nodup_cons] at hq
      exact fun c hc he => hq.1 (he ▸ hc)
    have hout2 : processContentTypes (requestBodyContent rb) schemas fuel
        (pre ++ "application/json" :: post) [] Json.null = JsOut.ret out := by
      rw [← hsplit]
      exact hout
    exact processCT_primary_set (requestBodyContent rb) schemas fuel pre post [] out
      (fun c hc => Or.inl (hpre c hc)) hpost hs hout2
  have hrecord : ∀ ct ∈ contentTypeKeys rb,
      ∃ w, contentTypeRecord (contentTypeVal rb ct) schemas fuel = JsOut.ret w ∧
        getField (Json.obj out.1) ct = w := by
    intro ct hmem
    exact processCT_record (requestBodyContent rb) schemas fuel (contentTypeKeys rb) [] Json.null
      out ct hnd hmem (fun _ _ => rfl) hout
  refine ⟨?_, ?_, ?_, ?_, ?_⟩
  · intro hno
    rw [hexa]
    exact processCT_primary_preserved (requestBodyContent rb) schemas fuel (contentTypeKeys rb)
      [] Json.null out hno hout
  · intro hmem hs hl
    rw [hexa]
    have hp := hprimary hmem hs
    rw [primaryExampleOf_lit (contentTypeVal rb "application/json") schemas fuel out.2 hl hp]
  · intro hmem hs hl
    obtain ⟨rs, hrs, hg⟩ := primaryExampleOf_gen (contentTypeVal rb "application/json") schemas
      fuel out.2 hl (hprimary hmem hs)
    refine ⟨rs, hrs, ?_⟩
    rw [hexa]
    exact hg
  · intro ct hmem hs hl
    obtain ⟨w, hw, hfield⟩ := hrecord ct hmem
    rw [hctf, hfield]
    exact contentTypeRecord_gen_null (contentTypeVal rb ct) schemas fuel w hs hl hw
  · intro ct hmem hs hl
    obtain ⟨w, hw, hfield⟩ := hrecord ct hmem
    obtain ⟨rs, hrs, hg⟩ := contentTypeRecord_gen_mock (contentTypeVal rb ct) schemas fuel w
      hs hl hw
    refine ⟨rs, hrs, ?_⟩
    rw [hctf, hfield]
    exact hg

/-- C8 witness: the literal-example conjunct applied to a request body whose
application/json content type carries a schema and the truthy example. -/
theorem requestBody_example_witness :
    getField (retValue (extractRequestBody rbJsonWithSchema [] 3)) "example" = Json.str "E" := by
  have h := requestBody_example_selection rbJsonWithSchema [] 3
    (retValue (extractRequestBody rbJsonWithSchema [] 3)) (by decide) rfl
  exact h.2.1 (by decide) rfl rfl

/-- C8 counterexample: an application/json content type that supplies a
literal example but no schema leaves the primary example null rather than
the literal, and a schema-bearing content type whose literal example is the
falsy zero still gets a generated example instead of null; both refute the
claim as stated. -/
theorem requestBody_primary_counterexample :
    getField (retValue (extractRequestBody rbNoSchemaJson [] 5)) "example" = Json.null ∧
    truthy (jsGetOpt (contentTypeVal rbNoSchemaJson "application/json") "example") = true ∧
    Json.null ≠ Json.str "LIT" ∧
    getField (getField (getField (retValue (extractRequestBody rbFalsyExample [] 5))
      "contentTypes") "application/json") "generatedExample" = Json.num 123 ∧
    Json.num 123 ≠ Json.null :=
  ⟨rfl, rfl, Json.ne_of_beq_false _ _ rfl, rfl, Json.ne_of_beq_false _ _ rfl⟩
